import Mathlib

/-!
Verification of the GeoFlight Planner backend (WaypointsDJI repository).

This file gives a shallow embedding of the core numeric and list-processing
code of the backend (calculator.py, waypoint_simplifier.py, wpml_builder.py,
kmz_packager.py, patterns/) and proves or refutes the specified properties.

Modelling conventions:
- Python floats are idealised as rationals wherever the code only performs
  field arithmetic, and as real numbers where transcendental functions
  (sin, cos, atan2, sqrt) occur (haversine distances, flat-earth distances).
- Python `int(x)` is truncation toward zero; Python `round(x, nd)` is
  round-half-to-even; both are modelled explicitly.
- Python exceptions are modelled with `Except PyError`.
- Keyword-argument binding failures (a call passing a keyword the callee
  does not declare) are modelled by checking the passed names against the
  list of parameter names of the callee, mirroring CPython semantics.
-/

namespace GeoFlight

/-- Python runtime errors relevant to the modelled code paths. -/
inductive PyError
  | typeError
  | attributeError
deriving DecidableEq, Repr

/-- Python `int(x)` applied to a float: truncation toward zero. -/
def pyInt (q : ℚ) : ℤ := if 0 ≤ q then ⌊q⌋ else ⌈q⌉

/-- Round-half-to-even to the nearest integer (the tie rule used by Python
`round`). Polymorphic so it applies to the rational and the real embedding. -/
def pyRoundInt {α : Type} [LinearOrderedField α] [FloorRing α] (s : α) : ℤ :=
  if Int.fract s < 1/2 then ⌊s⌋
  else if 1/2 < Int.fract s then ⌊s⌋ + 1
  else if ⌊s⌋ % 2 = 0 then ⌊s⌋ else ⌊s⌋ + 1

/-- Python `round(x, nd)` idealised on an ordered field. -/
def pyRound {α : Type} [LinearOrderedField α] [FloorRing α] (q : α) (nd : ℕ) : α :=
  (pyRoundInt (q * 10 ^ nd) : α) / 10 ^ nd

/-- Truthiness of an optional float in Python: `None` and `0.0` are falsy. -/
def qTruthy : Option ℚ → Bool
  | none => false
  | some q => q ≠ 0

/-! ## models.py -/

/-- Supported DJI drone models (models.DroneModel). -/
inductive DroneModel
  | mini_4_pro
  | mini_5_pro
deriving DecidableEq, Repr

/-- Action to perform at end of mission (models.FinishAction). -/
inductive FinishAction
  | goHome
  | noAction
  | autoLand
  | gotoFirstWaypoint
deriving DecidableEq, Repr

/-- Camera specifications for a drone (models.CameraSpec). -/
structure CameraSpec where
  name : String
  sensor_width_mm : ℚ
  sensor_height_mm : ℚ
  focal_length_mm : ℚ
  image_width_px : ℕ
  image_height_px : ℕ
  drone_enum_value : ℕ
  payload_enum_value : ℕ
  min_interval_12mp : ℚ
  min_interval_48mp : ℚ
deriving DecidableEq, Repr

/-- Camera presets keyed by drone model (models.CAMERA_PRESETS). -/
def CAMERA_PRESETS : DroneModel → CameraSpec
  | .mini_4_pro =>
    { name := "DJI Mini 4 Pro"
      sensor_width_mm := 959/100
      sensor_height_mm := 719/100
      focal_length_mm := 672/100
      image_width_px := 8064
      image_height_px := 6048
      drone_enum_value := 68
      payload_enum_value := 52
      min_interval_12mp := 2
      min_interval_48mp := 5 }
  | .mini_5_pro =>
    { name := "DJI Mini 5 Pro"
      sensor_width_mm := 959/100
      sensor_height_mm := 719/100
      focal_length_mm := 672/100
      image_width_px := 8064
      image_height_px := 6048
      drone_enum_value := 91
      payload_enum_value := 80
      min_interval_12mp := 2
      min_interval_48mp := 5 }

/-- A single waypoint in the flight path (models.Waypoint). The index is a
Python int; every index produced by this program is non-negative, so it is
modelled as a natural number. -/
structure Waypoint where
  index : ℕ
  longitude : ℚ
  latitude : ℚ
  altitude : ℚ
  heading : ℚ
  gimbal_pitch : ℚ
  speed : ℚ
  take_photo : Bool
deriving DecidableEq, Repr

instance : Inhabited Waypoint :=
  ⟨{ index := 0, longitude := 0, latitude := 0, altitude := 0, heading := 0,
     gimbal_pitch := -90, speed := 5, take_photo := true }⟩

/-- Calculated flight parameters (models.FlightParams). The flight-time
field involves a square root, hence lives in the reals; every other field
is rational. -/
structure FlightParams where
  altitude_m : ℚ
  gsd_cm_px : ℚ
  footprint_width_m : ℚ
  footprint_height_m : ℚ
  line_spacing_m : ℚ
  photo_spacing_m : ℚ
  max_speed_ms : ℚ
  photo_interval_s : ℚ
  estimated_photos : ℤ
  estimated_flight_time_min : ℝ

/-! ## calculator.py -/

namespace PhotogrammetryCalculator

/-- calculator.PhotogrammetryCalculator.gsd_to_altitude:
`altitude = (GSD * focal_length * image_width) / (sensor_width * 100)`. -/
def gsd_to_altitude (c : CameraSpec) (gsd_cm : ℚ) : ℚ :=
  gsd_cm * c.focal_length_mm * (c.image_width_px : ℚ) / (c.sensor_width_mm * 100)

/-- calculator.PhotogrammetryCalculator.altitude_to_gsd:
`gsd = (sensor_width * altitude * 100) / (focal_length * image_width)`. -/
def altitude_to_gsd (c : CameraSpec) (altitude_m : ℚ) : ℚ :=
  c.sensor_width_mm * altitude_m * 100 / (c.focal_length_mm * (c.image_width_px : ℚ))

/-- calculator.PhotogrammetryCalculator.calculate_footprint. -/
def calculate_footprint (c : CameraSpec) (altitude_m : ℚ) : ℚ × ℚ :=
  (c.sensor_width_mm / c.focal_length_mm * altitude_m,
   c.sensor_height_mm / c.focal_length_mm * altitude_m)

/-- calculator.PhotogrammetryCalculator.calculate_spacing. -/
def calculate_spacing (c : CameraSpec) (altitude_m front_overlap_pct side_overlap_pct : ℚ) :
    ℚ × ℚ :=
  let fp := calculate_footprint c altitude_m
  (fp.2 * (1 - front_overlap_pct / 100), fp.1 * (1 - side_overlap_pct / 100))

/-- calculator.PhotogrammetryCalculator.calculate_max_speed. -/
def calculate_max_speed (c : CameraSpec) (photo_spacing_m : ℚ) (use_48mp : Bool) : ℚ :=
  photo_spacing_m / (if use_48mp then c.min_interval_48mp else c.min_interval_12mp)

/-- calculator.PhotogrammetryCalculator.calculate_flight_params. The guard
`if area_m2 and area_m2 > 0` combines Python truthiness with the comparison.
The source computes `estimated_photos = int(area / coverage * 1.2)` and the
flight time through `math.sqrt`. -/
noncomputable def calculate_flight_params (c : CameraSpec)
    (target_gsd_cm front_overlap_pct side_overlap_pct : ℚ) (use_48mp : Bool)
    (area_m2 : Option ℚ) : FlightParams :=
  let altitude := gsd_to_altitude c target_gsd_cm
  let actual_gsd := altitude_to_gsd c altitude
  let fp := calculate_footprint c altitude
  let sp := calculate_spacing c altitude front_overlap_pct side_overlap_pct
  let photo_spacing := sp.1
  let line_spacing := sp.2
  let max_speed := calculate_max_speed c photo_spacing use_48mp
  let interval := if use_48mp then c.min_interval_48mp else c.min_interval_12mp
  let est : ℤ × ℝ :=
    match area_m2 with
    | some a =>
      if a ≠ 0 ∧ 0 < a then
        let effective_coverage := photo_spacing * line_spacing
        let estimated_photos := pyInt (a / effective_coverage * (12/10))
        let side_length : ℝ := Real.sqrt (a : ℝ)
        let num_lines : ℝ := side_length / (line_spacing : ℝ)
        let flight_distance : ℝ := side_length * num_lines * (11/10)
        (estimated_photos, flight_distance / (max_speed : ℝ) / 60)
      else (0, 0)
    | none => (0, 0)
  { altitude_m := pyRound altitude 1
    gsd_cm_px := pyRound actual_gsd 3
    footprint_width_m := pyRound fp.1 2
    footprint_height_m := pyRound fp.2 2
    line_spacing_m := pyRound line_spacing 2
    photo_spacing_m := pyRound photo_spacing 2
    max_speed_ms := pyRound max_speed 2
    photo_interval_s := interval
    estimated_photos := est.1
    estimated_flight_time_min := pyRound est.2 1 }

end PhotogrammetryCalculator

/-! ## waypoint_simplifier.py -/

/-- math.radians. -/
noncomputable def radians (d : ℚ) : ℝ := (d : ℝ) * Real.pi / 180

/-- math.atan2 with the CPython sign conventions (atan2(0, 0) = 0). -/
noncomputable def atan2 (y x : ℝ) : ℝ :=
  if 0 < x then Real.arctan (y / x)
  else if x < 0 ∧ 0 ≤ y then Real.arctan (y / x) + Real.pi
  else if x < 0 then Real.arctan (y / x) - Real.pi
  else if x = 0 ∧ 0 < y then Real.pi / 2
  else if x = 0 ∧ y < 0 then -(Real.pi / 2)
  else 0

/-- WaypointSimplifier._haversine_distance: great-circle distance in meters
with Earth radius 6371000 m. -/
noncomputable def haversine_distance (lat1 lon1 lat2 lon2 : ℚ) : ℝ :=
  let R : ℝ := 6371000
  let lat1_rad := radians lat1
  let lat2_rad := radians lat2
  let delta_lat := radians (lat2 - lat1)
  let delta_lon := radians (lon2 - lon1)
  let a := Real.sin (delta_lat / 2) ^ 2 +
    Real.cos lat1_rad * Real.cos lat2_rad * Real.sin (delta_lon / 2) ^ 2
  let c := 2 * atan2 (Real.sqrt a) (Real.sqrt (1 - a))
  R * c

/-- Configuration record of waypoint_simplifier.WaypointSimplifier. -/
structure WaypointSimplifier where
  angle_threshold_deg : ℚ
  max_distance_between_m : Option ℚ
  max_time_between_s : Option ℚ
  speed_ms : ℚ
deriving DecidableEq

namespace WaypointSimplifier

open Classical

/-- The heading difference with 360/0 wrap-around handling computed inside
the loop of _find_critical_waypoints. -/
def headingDiffOf (prev_heading curr_heading : ℚ) : ℚ :=
  let diff := |curr_heading - prev_heading|
  if 180 < diff then 360 - diff else diff

/-- WaypointSimplifier._find_critical_waypoints: always keeps 0 and n-1;
the loop over i in range(1, n) adds both i-1 and i whenever the heading
difference is at least the angle threshold. -/
def find_critical_waypoints (self : WaypointSimplifier) (waypoints : List Waypoint) :
    Finset ℕ :=
  ({0, waypoints.length - 1} : Finset ℕ) ∪
    (Finset.Ico 1 waypoints.length).biUnion (fun i =>
      if self.angle_threshold_deg ≤
          headingDiffOf (waypoints.getD (i - 1) default).heading
            (waypoints.getD i default).heading
      then {i - 1, i} else ∅)

/-- The max allowed distance computed per segment inside
_add_intermediate_waypoints: a time budget, when truthy, is converted with
the speed of the segment start waypoint (falling back on speed_ms when that
speed is falsy) and replaces the distance budget. -/
def maxDistFor (self : WaypointSimplifier) (waypoints : List Waypoint) (start_idx : ℕ) :
    Option ℚ :=
  if qTruthy self.max_time_between_s then
    let speed := if (waypoints.getD start_idx default).speed ≠ 0
      then (waypoints.getD start_idx default).speed else self.speed_ms
    some (self.max_time_between_s.getD 0 * speed)
  else self.max_distance_between_m

/-- State of the inner loop of _add_intermediate_waypoints. -/
structure AccState where
  accumulated_distance : ℝ
  last_added_idx : ℕ
  added : Finset ℕ

/-- One iteration of the inner loop of _add_intermediate_waypoints: the
accumulated distance grows by the haversine distance between waypoints j-1
and j; when it reaches max_dist, waypoint j becomes critical and the
accumulator resets. (The source also computes a distance from
last_added_idx to j which it never uses; that dead value is omitted, but
last_added_idx is still threaded as in the source.) -/
noncomputable def innerStep (waypoints : List Waypoint) (max_dist : ℚ)
    (s : AccState) (j : ℕ) : AccState :=
  let prev := waypoints.getD (j - 1) default
  let curr := waypoints.getD j default
  let acc := s.accumulated_distance +
    haversine_distance prev.latitude prev.longitude curr.latitude curr.longitude
  if (max_dist : ℝ) ≤ acc then
    { accumulated_distance := 0, last_added_idx := j, added := insert j s.added }
  else
    { s with accumulated_distance := acc }

/-- WaypointSimplifier._add_intermediate_waypoints: walk the consecutive
pairs of the sorted critical indices; for each pair with interior waypoints
and a truthy distance budget, add every interior waypoint at which the
accumulated haversine distance reaches the budget. -/
noncomputable def add_intermediate_waypoints (self : WaypointSimplifier)
    (waypoints : List Waypoint) (critical_indices : Finset ℕ) : Finset ℕ :=
  let sorted_critical := critical_indices.sort (· ≤ ·)
  (sorted_critical.zip sorted_critical.tail).foldl (fun result p =>
    let start_idx := p.1
    let end_idx := p.2
    if end_idx - start_idx ≤ 1 then result
    else
      let max_dist := maxDistFor self waypoints start_idx
      if qTruthy max_dist then
        result ∪ ((List.range' (start_idx + 1) (end_idx - (start_idx + 1))).foldl
          (innerStep waypoints (max_dist.getD 0))
          { accumulated_distance := 0, last_added_idx := start_idx, added := ∅ }).added
      else result)
    critical_indices

/-- The waypoint reconstruction in step 3 of simplify: a new Waypoint with
the new position index and all other fields copied. -/
def reindexed (i : ℕ) (wp : Waypoint) : Waypoint :=
  { index := i, longitude := wp.longitude, latitude := wp.latitude,
    altitude := wp.altitude, heading := wp.heading, gimbal_pitch := wp.gimbal_pitch,
    speed := wp.speed, take_photo := wp.take_photo }

/-- WaypointSimplifier.simplify: lists of at most two waypoints are returned
unchanged; otherwise the critical indices are found, optionally augmented
with intermediate waypoints when a spacing budget is truthy, and the kept
waypoints are emitted in sorted order with contiguous indices. -/
noncomputable def simplify (self : WaypointSimplifier) (waypoints : List Waypoint) :
    List Waypoint :=
  if waypoints.length ≤ 2 then waypoints
  else
    let critical := self.find_critical_waypoints waypoints
    let critical :=
      if qTruthy self.max_distance_between_m || qTruthy self.max_time_between_s
      then self.add_intermediate_waypoints waypoints critical
      else critical
    (critical.sort (· ≤ ·)).mapIdx (fun i original_idx =>
      reindexed i (waypoints.getD original_idx default))

/-- The haversine gap between the waypoints at positions j-1 and j, exactly
as read by one iteration of the inner loop of _add_intermediate_waypoints. -/
noncomputable def gapOf (waypoints : List Waypoint) (j : ℕ) : ℝ :=
  haversine_distance (waypoints.getD (j - 1) default).latitude
    (waypoints.getD (j - 1) default).longitude
    (waypoints.getD j default).latitude (waypoints.getD j default).longitude

/-- Greedy accumulation marking: walk a gap list, accumulate, and count a
mark whenever the accumulator reaches the budget, then reset. This is the
abstract counting core of the inner loop of _add_intermediate_waypoints. -/
noncomputable def marks (B : ℝ) : List ℝ → ℝ → ℕ
  | [], _ => 0
  | g :: l, a => if B ≤ a + g then marks B l 0 + 1 else marks B l (a + g)

/-- The accumulator value left after the greedy walk. -/
noncomputable def leftover (B : ℝ) : List ℝ → ℝ → ℝ
  | [], a => a
  | g :: l, a => if B ≤ a + g then leftover B l 0 else leftover B l (a + g)

/-- The number of intermediate indices the inner loop inserts between the
consecutive critical indices a and c under a constant distance budget B. -/
noncomputable def gapWeight (waypoints : List Waypoint) (B : ℝ) (a c : ℕ) : ℕ :=
  marks B ((List.range' (a + 1) (c - (a + 1))).map (gapOf waypoints)) 0

/-- The set of indices the inner loop inserts for the critical pair
(a, c). -/
noncomputable def pairAdded (waypoints : List Waypoint) (m : ℚ) (a c : ℕ) : Finset ℕ :=
  ((List.range' (a + 1) (c - (a + 1))).foldl (innerStep waypoints m)
    { accumulated_distance := 0, last_added_idx := a, added := ∅ }).added

/-- Consecutive pairs of a list of critical indices, as zipped by
_add_intermediate_waypoints. -/
def chainPairs : List ℕ → List (ℕ × ℕ)
  | a :: b :: l => (a, b) :: chainPairs (b :: l)
  | _ => []

/-- The per-pair weighted count of a chain of critical indices: element
count plus the total weight of the consecutive pairs. -/
def chainCount (w : ℕ → ℕ → ℕ) (l : List ℕ) : ℕ :=
  l.length + ((chainPairs l).map (fun p => w p.1 p.2)).sum

end WaypointSimplifier

/-! ## wpml_builder.py

The XML emission is modelled structurally: each element that carries
mission data becomes a field, in emission order. Constant cosmetic elements
(namespaces, author, timestamps, poi placeholders) are not data and are
recorded in the doc comments instead. -/

/-- The wpml string value of a FinishAction (models.FinishAction values). -/
def FinishAction.value : FinishAction → String
  | .goHome => "goHome"
  | .noAction => "noAction"
  | .autoLand => "autoLand"
  | .gotoFirstWaypoint => "gotoFirstWaypoint"

/-- The actionGroup element emitted for a waypoint whose take_photo flag is
set, in both placemark builders: group id and start/end index all equal the
waypoint index, trigger reachPoint, then a gimbalRotate action with
actionId 0 followed by a takePhoto action with actionId 1. -/
structure ActionGroup where
  actionGroupId : ℕ
  actionGroupStartIndex : ℕ
  actionGroupEndIndex : ℕ
  actionTriggerType : String
  actionIds : List ℕ
  actionActuatorFuncs : List String
  gimbalPitchRotateAngle : ℤ
deriving DecidableEq, Repr

/-- Data content of an emitted Placemark element. -/
structure Placemark where
  longitude : ℚ
  latitude : ℚ
  index : ℕ
  executeHeight : ℚ
  waypointSpeed : ℚ
  waypointHeadingMode : String
  waypointHeadingAngle : ℤ
  waypointTurnMode : String
  useStraightLine : String
  actionGroup : Option ActionGroup
deriving DecidableEq, Repr

/-- WPMLBuilder state (wpml_builder.WPMLBuilder.__init__): the camera preset
is looked up from the drone model. The default timestamped mission name is
time-dependent and the name is not data any claim touches, so it is kept as
the optional argument. -/
structure WPMLBuilder where
  camera : CameraSpec
  waypoints : List Waypoint
  mission_name : Option String
  drone_model : DroneModel

namespace WPMLBuilder

/-- wpml_builder.WPMLBuilder construction from its arguments. -/
def make (drone_model : DroneModel) (waypoints : List Waypoint)
    (mission_name : Option String) : WPMLBuilder :=
  { camera := CAMERA_PRESETS drone_model, waypoints, mission_name, drone_model }

/-- The action group built by both placemark builders for a take_photo
waypoint: a gimbalRotate action carrying actionId 0 and the truncated
gimbal pitch, then a takePhoto action carrying actionId 1. -/
def actionGroupFor (wp : Waypoint) : ActionGroup :=
  { actionGroupId := wp.index
    actionGroupStartIndex := wp.index
    actionGroupEndIndex := wp.index
    actionTriggerType := "reachPoint"
    actionIds := [0, 1]
    actionActuatorFuncs := ["gimbalRotate", "takePhoto"]
    gimbalPitchRotateAngle := pyInt wp.gimbal_pitch }

/-- WPMLBuilder._create_template_placemark. -/
def create_template_placemark (wp : Waypoint) : Placemark :=
  { longitude := wp.longitude
    latitude := wp.latitude
    index := wp.index
    executeHeight := wp.altitude
    waypointSpeed := wp.speed
    waypointHeadingMode := "smoothTransition"
    waypointHeadingAngle := pyInt wp.heading
    waypointTurnMode := "coordinateTurn"
    useStraightLine := "1"
    actionGroup := if wp.take_photo then some (actionGroupFor wp) else none }

/-- WPMLBuilder._create_wpml_placemark (same data shape as the template
placemark in this source variant). -/
def create_wpml_placemark (wp : Waypoint) : Placemark :=
  { longitude := wp.longitude
    latitude := wp.latitude
    index := wp.index
    executeHeight := wp.altitude
    waypointSpeed := wp.speed
    waypointHeadingMode := "smoothTransition"
    waypointHeadingAngle := pyInt wp.heading
    waypointTurnMode := "coordinateTurn"
    useStraightLine := "1"
    actionGroup := if wp.take_photo then some (actionGroupFor wp) else none }

/-- Shared missionConfig data of both documents. -/
structure MissionConfig where
  flyToWaylineMode : String
  finishAction : String
  droneEnumValue : ℕ
  payloadEnumValue : ℕ
deriving DecidableEq, Repr

/-- Data content of template.kml. -/
structure TemplateKml where
  missionConfig : MissionConfig
  autoFlightSpeed : ℚ
  placemarks : List Placemark
deriving DecidableEq, Repr

/-- Data content of waylines.wpml. -/
structure WaylinesWpml where
  missionConfig : MissionConfig
  autoFlightSpeed : ℚ
  placemarks : List Placemark
deriving DecidableEq, Repr

/-- WPMLBuilder.build_template_kml. -/
def build_template_kml (self : WPMLBuilder) (finish_action : FinishAction) : TemplateKml :=
  { missionConfig :=
      { flyToWaylineMode := "safely"
        finishAction := finish_action.value
        droneEnumValue := self.camera.drone_enum_value
        payloadEnumValue := self.camera.payload_enum_value }
    autoFlightSpeed := match self.waypoints with
      | [] => 5
      | wp :: _ => wp.speed
    placemarks := self.waypoints.map create_template_placemark }

/-- WPMLBuilder.build_waylines_wpml. In this source variant the
finishAction of the waylines document is hardcoded to goHome. The method
signature takes no parameter besides self. -/
def build_waylines_wpml (self : WPMLBuilder) : WaylinesWpml :=
  { missionConfig :=
      { flyToWaylineMode := "safely"
        finishAction := "goHome"
        droneEnumValue := self.camera.drone_enum_value
        payloadEnumValue := self.camera.payload_enum_value }
    autoFlightSpeed := match self.waypoints with
      | [] => 5
      | wp :: _ => wp.speed
    placemarks := self.waypoints.map create_wpml_placemark }

/-- The sequence of actionId values appearing in a waylines.wpml document,
in emission order. -/
def waylinesActionIds (ws : List Waypoint) : List ℕ :=
  ((ws.map create_wpml_placemark).map (fun pm =>
    match pm.actionGroup with
    | some g => g.actionIds
    | none => [])).flatten

end WPMLBuilder

/-! ## kmz_packager.py -/

/-- A named entry of the produced zip archive. -/
inductive KmzEntry
  | template (doc : WPMLBuilder.TemplateKml)
  | waylines (doc : WPMLBuilder.WaylinesWpml)
deriving DecidableEq

/-- kmz_packager.KMZPackager.__init__ data. -/
structure KMZPackager where
  drone_model : DroneModel
  waypoints : List Waypoint
  mission_name : Option String

namespace KMZPackager

/-- The WPMLBuilder constructed by KMZPackager.__init__. -/
def builder (self : KMZPackager) : WPMLBuilder :=
  WPMLBuilder.make self.drone_model self.waypoints self.mission_name

/-- Parameter names besides self of WPMLBuilder.build_waylines_wpml: the
source signature is build_waylines_wpml(self) with no further parameters. -/
def build_waylines_wpml_params : List String := []

/-- CPython keyword binding: a call fails with TypeError when a passed
keyword name is not among the callee parameter names. -/
def callWithKwargs {α : Type} (accepted : List String) (kwargs : List String)
    (result : α) : Except PyError α :=
  if kwargs.all (fun k => accepted.contains k) then .ok result else .error .typeError

/-- kmz_packager.KMZPackager.create_kmz: reads the first-waypoint gimbal
pitch (default -90), builds template.kml, then invokes
build_waylines_wpml(gimbal_pitch=...) — passing a keyword the callee does
not declare — and on success would package the two documents under the
fixed wpmz/ paths. -/
def create_kmz (self : KMZPackager) (finish_action : FinishAction) :
    Except PyError (List (String × KmzEntry)) :=
  let _gimbal_pitch : ℚ := match self.waypoints with
    | [] => -90
    | wp :: _ => wp.gimbal_pitch
  let template_kml := self.builder.build_template_kml finish_action
  match callWithKwargs build_waylines_wpml_params ["gimbal_pitch"]
      self.builder.build_waylines_wpml with
  | .error e => .error e
  | .ok waylines_wpml =>
    .ok [("wpmz/template.kml", .template template_kml),
         ("wpmz/waylines.wpml", .waylines waylines_wpml)]

/-- The mission statistics dictionary of get_mission_stats. -/
structure MissionStats where
  waypoint_count : ℕ
  estimated_distance_m : ℝ
  estimated_photos : ℕ

/-- One leg of the distance loop in get_mission_stats: flat-earth
approximation with latitude-scaled longitude and the altitude difference,
111320 meters per degree. -/
noncomputable def legDistance (prev curr : Waypoint) : ℝ :=
  let lat_diff : ℝ := ((curr.latitude - prev.latitude : ℚ) : ℝ) * 111320
  let lon_diff : ℝ := ((curr.longitude - prev.longitude : ℚ) : ℝ) * 111320 *
    Real.cos (radians ((curr.latitude + prev.latitude) / 2))
  let alt_diff : ℝ := ((curr.altitude - prev.altitude : ℚ) : ℝ)
  Real.sqrt (lat_diff ^ 2 + lon_diff ^ 2 + alt_diff ^ 2)

/-- The total distance accumulated over consecutive waypoint pairs. -/
noncomputable def totalDistance : List Waypoint → ℝ
  | [] => 0
  | [_] => 0
  | prev :: curr :: rest => legDistance prev curr + totalDistance (curr :: rest)

/-- kmz_packager.KMZPackager.get_mission_stats. -/
noncomputable def get_mission_stats (self : KMZPackager) : MissionStats :=
  match self.waypoints with
  | [] => { waypoint_count := 0, estimated_distance_m := 0, estimated_photos := 0 }
  | _ =>
    { waypoint_count := self.waypoints.length
      estimated_distance_m := pyRound (totalDistance self.waypoints) 1
      estimated_photos := (self.waypoints.filter (fun wp => wp.take_photo)).length }

end KMZPackager

/-! ## patterns/base.py, grid.py, double_grid.py, orbit.py -/

/-- PatternGenerator._create_waypoint (base.py): altitude and speed come
from the flight parameters of the generator. -/
def create_waypoint (fp : FlightParams) (index : ℕ) (lon lat heading gimbal_pitch : ℚ)
    (take_photo : Bool) : Waypoint :=
  { index, longitude := lon, latitude := lat, altitude := fp.altitude_m, heading,
    gimbal_pitch, speed := fp.max_speed_ms, take_photo }

/-- Model of a shapely LineString as consumed by
GridPatternGenerator._lines_to_waypoints: its planar coordinate list, its
geometric length and its normalized interpolation composed with the
UTM-to-WGS84 transform. Length and interpolation are computed by the
external geometry libraries (shapely, pyproj); their values are irrelevant
to the index bookkeeping under scrutiny. -/
structure SLine where
  coords : List (ℚ × ℚ)
  length : ℚ
  interp : ℚ → ℚ × ℚ

/-- GridPatternGenerator._lines_to_waypoints: lines with fewer than two
coordinates are skipped; each surviving line contributes
max(2, int(length/photo_spacing)+1) stations at evenly spaced normalized
fractions, with a single running index across all lines. The per-line
heading (_calculate_heading, an atan2 in the planar frame) is abstracted as
the parameter heading_of. -/
def lines_to_waypoints (fp : FlightParams) (heading_of : (ℚ × ℚ) → (ℚ × ℚ) → ℚ)
    (lines : List SLine) : List Waypoint :=
  (lines.foldl (fun (st : ℕ × List Waypoint) line =>
    if line.coords.length < 2 then st
    else
      let heading := heading_of (line.coords.getD 0 (0, 0)) (line.coords.getLastD (0, 0))
      let num_photos : ℕ := (max 2 (pyInt (line.length / fp.photo_spacing_m) + 1)).toNat
      (List.range num_photos).foldl (fun (st : ℕ × List Waypoint) j =>
        let fraction : ℚ := if 1 < num_photos then (j : ℚ) / ((num_photos : ℚ) - 1) else 0
        let point := line.interp fraction
        (st.1 + 1, st.2 ++ [create_waypoint fp st.1 point.1 point.2 heading (-90) true]))
        st)
    (0, [])).2

/-- CorridorPatternGenerator._lines_to_waypoints: the corridor emission
has the same single-running-index bookkeeping as the grid emission; lines
with fewer than two coordinates are skipped and each surviving line
contributes max(2, int(length/photo_spacing)+1) stations at evenly spaced
normalized fractions. The only textual difference from the grid version is
that _create_waypoint is called without an explicit gimbal_pitch, so the
-90 default of base.py applies — the same value the grid passes
explicitly. -/
def corridor_lines_to_waypoints (fp : FlightParams)
    (heading_of : (ℚ × ℚ) → (ℚ × ℚ) → ℚ) (lines : List SLine) : List Waypoint :=
  (lines.foldl (fun (st : ℕ × List Waypoint) line =>
    if line.coords.length < 2 then st
    else
      let heading := heading_of (line.coords.getD 0 (0, 0)) (line.coords.getLastD (0, 0))
      let num_photos : ℕ := (max 2 (pyInt (line.length / fp.photo_spacing_m) + 1)).toNat
      (List.range num_photos).foldl (fun (st : ℕ × List Waypoint) j =>
        let fraction : ℚ := if 1 < num_photos then (j : ℚ) / ((num_photos : ℚ) - 1) else 0
        let point := line.interp fraction
        (st.1 + 1, st.2 ++ [create_waypoint fp st.1 point.1 point.2 heading (-90) true]))
        st)
    (0, [])).2

/-- Python float modulo with a positive modulus, as in
(original_angle + 90) % 360. -/
def qMod (a b : ℚ) : ℚ := a - b * ⌊a / b⌋

/-- DoubleGridPatternGenerator.generate: degenerate polygons yield the
empty list; otherwise the inherited grid generation runs at the original
flight angle and at the perpendicular angle (the source mutates
flight_angle_deg between the passes, so the inherited generation is the
parameter grid_generate as a function of that attribute), the second pass
is re-indexed by the length of the first, and the passes concatenate. -/
def double_grid_generate (grid_generate : ℚ → List Waypoint)
    (flight_angle_deg : ℚ) (polygon_coords_len : ℕ) : List Waypoint :=
  if polygon_coords_len < 3 then []
  else
    let first_pass := grid_generate flight_angle_deg
    let second_pass := grid_generate (qMod (flight_angle_deg + 90) 360)
    let offset := first_pass.length
    let second_pass := second_pass.map (fun wp => { wp with index := wp.index + offset })
    first_pass ++ second_pass

/-- OrbitPatternGenerator._generate_orbit: a double loop over orbits and
photo stations with a single running waypoint index. Per orbit the
altitude grows by altitude_step_m from the flight altitude, the gimbal
pitch starts at start_gimbal_pitch, is raised by 10 degrees per orbit and
clamped with min(-15, ·); per station the photo angle is i * 360 /
photos_per_orbit, the heading is (angle_deg + 180) % 360, and every
station photographs at max_speed_ms. The planar placement (sin/cos on the
orbit circle around the UTM center) composed with the pyproj UTM-to-WGS84
transform is abstracted as position_of over the rational photo angle, as
the transforms are for the other generators. When photos_per_orbit is
zero CPython raises ZeroDivisionError computing angle_step before any
waypoint is appended; field division totalises that angle as 0, which
only alters angle values of an empty inner range, never the emitted
list. -/
def generate_orbit (fp : FlightParams) (position_of : ℚ → ℚ × ℚ)
    (num_orbits : ℕ) (altitude_step_m : ℚ) (photos_per_orbit : ℕ)
    (start_gimbal_pitch : ℚ) : List Waypoint :=
  ((List.range num_orbits).foldl (fun (st : ℕ × List Waypoint) orbit_num =>
    let altitude := fp.altitude_m + (orbit_num : ℚ) * altitude_step_m
    let gimbal_pitch := min (-15) (start_gimbal_pitch + (orbit_num : ℚ) * 10)
    let angle_step : ℚ := 360 / (photos_per_orbit : ℚ)
    (List.range photos_per_orbit).foldl (fun (st : ℕ × List Waypoint) i =>
      let angle_deg := (i : ℚ) * angle_step
      let point := position_of angle_deg
      let heading := qMod (angle_deg + 180) 360
      (st.1 + 1, st.2 ++ [{ index := st.1, longitude := point.1, latitude := point.2, altitude := altitude, heading := heading, gimbal_pitch := gimbal_pitch, speed := fp.max_speed_ms, take_photo := true }]))
      st)
    (0, [])).2

/-- The numeric instance attributes an OrbitPatternGenerator carries:
PatternGenerator.__init__ assigns flight_params and flight_angle_deg (the
latter being the only float-valued one), the class body declares the three
transformer slots, and no method of base.py or orbit.py ever assigns
gimbal_pitch_deg. -/
def orbitInstanceNumericAttr (flight_angle_deg : ℚ) : String → Option ℚ :=
  fun name => if name = "flight_angle_deg" then some flight_angle_deg else none

/-- CPython attribute lookup: AttributeError when the name is unbound. -/
def getattrOrError (attr : String → Option ℚ) (name : String) : Except PyError ℚ :=
  match attr name with
  | some v => .ok v
  | none => .error .attributeError

/-- The center/radius branch at the end of OrbitPatternGenerator.generate:
`if center and radius_m` (truthiness: center not None, radius not None and
nonzero), else the empty list. -/
def orbit_center_branch (from_center : (ℚ × ℚ) → ℚ → ℕ → ℚ → ℕ → ℚ → List Waypoint)
    (center : Option (ℚ × ℚ)) (radius_m : Option ℚ) (num_orbits : ℕ)
    (altitude_step_m : ℚ) (photos_per_orbit : ℕ) (gimbal_pitch : ℚ) : List Waypoint :=
  match center, radius_m with
  | some c, some r =>
    if r ≠ 0 then from_center c r num_orbits altitude_step_m photos_per_orbit gimbal_pitch
    else []
  | _, _ => []

/-- OrbitPatternGenerator.generate: the first statement resolves the gimbal
pitch default by reading self.gimbal_pitch_deg when start_gimbal_pitch is
None; then the polygon branch (truthy list with at least 3 vertices) or the
center branch runs. The geometric sub-generators _generate_from_polygon and
_generate_from_center (pyproj/shapely based) are taken as parameters. -/
def orbit_generate (from_polygon : List (ℚ × ℚ) → ℕ → ℚ → ℕ → ℚ → List Waypoint)
    (from_center : (ℚ × ℚ) → ℚ → ℕ → ℚ → ℕ → ℚ → List Waypoint)
    (self_attr : String → Option ℚ) (polygon_coords : Option (List (ℚ × ℚ)))
    (center : Option (ℚ × ℚ)) (radius_m : Option ℚ) (num_orbits : ℕ)
    (altitude_step_m : ℚ) (photos_per_orbit : ℕ) (start_gimbal_pitch : Option ℚ) :
    Except PyError (List Waypoint) :=
  match (match start_gimbal_pitch with
         | some gp => Except.ok gp
         | none => getattrOrError self_attr "gimbal_pitch_deg") with
  | .error e => .error e
  | .ok gimbal_pitch =>
    match polygon_coords with
    | some pc =>
      if pc ≠ [] ∧ 3 ≤ pc.length then
        .ok (from_polygon pc num_orbits altitude_step_m photos_per_orbit gimbal_pitch)
      else
        .ok (orbit_center_branch from_center center radius_m num_orbits altitude_step_m
          photos_per_orbit gimbal_pitch)
    | none =>
      .ok (orbit_center_branch from_center center radius_m num_orbits altitude_step_m
        photos_per_orbit gimbal_pitch)

/-- Index contiguity: the index fields are exactly 0..n-1 in emission
order. -/
def indicesContiguous (ws : List Waypoint) : Prop :=
  ws.map (fun wp => wp.index) = List.range ws.length

instance : DecidablePred indicesContiguous := fun ws =>
  inferInstanceAs (Decidable (ws.map (fun wp => wp.index) = List.range ws.length))

/-! ## Concrete fixtures used by the scenario claims -/

/-- Helper building a test waypoint, mirroring the fixture helper of the
repository test-suite. -/
def mkTestWaypoint (index : ℕ) (lon lat heading : ℚ) (speed : ℚ := 5) : Waypoint :=
  { index, longitude := lon, latitude := lat, altitude := 50, heading,
    gimbal_pitch := -90, speed, take_photo := true }

/-- Five collinear waypoints (same longitude, increasing latitude) with
heading 0 at every vertex. -/
def c3Collinear : List Waypoint :=
  [mkTestWaypoint 0 0 0 0, mkTestWaypoint 1 0 1 0, mkTestWaypoint 2 0 2 0,
   mkTestWaypoint 3 0 3 0, mkTestWaypoint 4 0 4 0]

/-- The same path with one additional waypoint of heading 90 inserted
mid-sequence (at position 2 of the resulting six). -/
def c3WithTurn : List Waypoint :=
  [mkTestWaypoint 0 0 0 0, mkTestWaypoint 1 0 1 0,
   mkTestWaypoint 2 1 1 90, mkTestWaypoint 3 0 2 0,
   mkTestWaypoint 4 0 3 0, mkTestWaypoint 5 0 4 0]

/-- Angle threshold 1 degree, no spacing budget. -/
def c3Simplifier : WaypointSimplifier :=
  { angle_threshold_deg := 1, max_distance_between_m := none,
    max_time_between_s := none, speed_ms := 5 }

/-- Two distinct waypoints, one 1/11132 degree of latitude (exactly 10
flat-earth meters) north of the other. -/
def c1Waypoints : List Waypoint :=
  [{ index := 0, longitude := 0, latitude := 0, altitude := 60, heading := 0,
     gimbal_pitch := -90, speed := 5, take_photo := true },
   { index := 1, longitude := 0, latitude := 1/11132, altitude := 60, heading := 0,
     gimbal_pitch := -90, speed := 5, take_photo := true }]

/-- The packager over the two-waypoint mission. -/
def c1Packager : KMZPackager :=
  { drone_model := .mini_4_pro, waypoints := c1Waypoints, mission_name := none }

/-- The three-waypoint fixture of the repository wpml tests. -/
def c4Waypoints : List Waypoint :=
  [{ index := 0, longitude := -74006/1000, latitude := 407128/10000, altitude := 60,
     heading := 45, gimbal_pitch := -90, speed := 5, take_photo := true },
   { index := 1, longitude := -74005/1000, latitude := 407128/10000, altitude := 60,
     heading := 45, gimbal_pitch := -90, speed := 5, take_photo := true },
   { index := 2, longitude := -74005/1000, latitude := 407138/10000, altitude := 60,
     heading := 135, gimbal_pitch := -90, speed := 5, take_photo := true }]

/-- Six waypoints on the equator alternating between longitudes 0 and 90,
so every consecutive haversine distance is a quarter of the Earth
circumference; heading changes by 5 degrees after the first waypoint and
stays constant afterwards; the second waypoint carries a very large speed,
the first a small one. -/
def c8Waypoints : List Waypoint :=
  [mkTestWaypoint 0 0 0 0 1, mkTestWaypoint 1 90 0 5 1000000000,
   mkTestWaypoint 2 0 0 5 1, mkTestWaypoint 3 90 0 5 1,
   mkTestWaypoint 4 0 0 5 1, mkTestWaypoint 5 90 0 5 1]

/-- Threshold 3 degrees, time budget 1 second. -/
def c8Low : WaypointSimplifier :=
  { angle_threshold_deg := 3, max_distance_between_m := none,
    max_time_between_s := some 1, speed_ms := 5 }

/-- Threshold 10 degrees, same time budget. -/
def c8High : WaypointSimplifier :=
  { angle_threshold_deg := 10, max_distance_between_m := none,
    max_time_between_s := some 1, speed_ms := 5 }

/-- A simple camera profile: 10 mm square sensor, 5 mm focal length,
4000 px image width (the worked example optics of the specification). -/
def simpleCamera : CameraSpec :=
  { name := "Simple", sensor_width_mm := 10, sensor_height_mm := 10,
    focal_length_mm := 5, image_width_px := 4000, image_height_px := 3000,
    drone_enum_value := 68, payload_enum_value := 52,
    min_interval_12mp := 2, min_interval_48mp := 5 }

/-! ## Theorems -/

/-- Sorting an insert of a minimal fresh element, specialised to ℕ. -/
theorem sortInsertNat {a : ℕ} {s : Finset ℕ} (h₁ : ∀ b ∈ s, a ≤ b) (h₂ : a ∉ s) :
    (insert a s).sort (· ≤ ·) = a :: s.sort (· ≤ ·) := Finset.sort_insert _ h₁ h₂

/-- Critical indices of the five collinear heading-0 waypoints at
threshold 1: only the endpoints. -/
theorem find_critical_c3Collinear :
    c3Simplifier.find_critical_waypoints c3Collinear = {0, 4} := by
  unfold WaypointSimplifier.find_critical_waypoints
  rw [show c3Collinear.length = 5 from rfl,
    show (Finset.Ico 1 5 : Finset ℕ) = insert 1 (insert 2 (insert 3 {4})) by decide]
  rw [Finset.biUnion_insert, Finset.biUnion_insert, Finset.biUnion_insert,
    Finset.singleton_biUnion]
  norm_num [c3Collinear, mkTestWaypoint, WaypointSimplifier.headingDiffOf, c3Simplifier]

/-- Critical indices of the six-waypoint path with the inserted heading-90
waypoint at position 2, threshold 1: both pairs around the turn fire, so
positions 1, 2 and 3 are all kept besides the endpoints. -/
theorem find_critical_c3WithTurn :
    c3Simplifier.find_critical_waypoints c3WithTurn = {0, 1, 2, 3, 5} := by
  unfold WaypointSimplifier.find_critical_waypoints
  rw [show c3WithTurn.length = 6 from rfl,
    show (Finset.Ico 1 6 : Finset ℕ) = insert 1 (insert 2 (insert 3 (insert 4 {5}))) by decide]
  rw [Finset.biUnion_insert, Finset.biUnion_insert, Finset.biUnion_insert,
    Finset.biUnion_insert, Finset.singleton_biUnion]
  norm_num [c3WithTurn, mkTestWaypoint, WaypointSimplifier.headingDiffOf, c3Simplifier]
  decide

/-- The simplified collinear path: exactly the two endpoints, re-indexed. -/
theorem simplify_c3Collinear :
    c3Simplifier.simplify c3Collinear = [mkTestWaypoint 0 0 0 0, mkTestWaypoint 1 0 4 0] := by
  simp only [WaypointSimplifier.simplify, find_critical_c3Collinear]
  norm_num [qTruthy, c3Simplifier]
  rw [show ({0, 4} : Finset ℕ) = insert 0 {4} from rfl,
    sortInsertNat (by decide) (by decide), Finset.sort_singleton]
  decide

/-- The simplified turn path: five waypoints — both endpoints, the point
before the turn, the turn point and the point after the turn. -/
theorem simplify_c3WithTurn :
    c3Simplifier.simplify c3WithTurn =
      [mkTestWaypoint 0 0 0 0, mkTestWaypoint 1 0 1 0, mkTestWaypoint 2 1 1 90,
       mkTestWaypoint 3 0 2 0, mkTestWaypoint 4 0 4 0] := by
  simp only [WaypointSimplifier.simplify, find_critical_c3WithTurn]
  norm_num [qTruthy, c3Simplifier]
  rw [show ({0, 1, 2, 3, 5} : Finset ℕ) = insert 0 (insert 1 (insert 2 (insert 3 {5})))
      from rfl,
    sortInsertNat (by decide) (by decide), sortInsertNat (by decide) (by decide),
    sortInsertNat (by decide) (by decide), sortInsertNat (by decide) (by decide),
    Finset.sort_singleton]
  decide

/-- C3 counterexample: at the six-waypoint scenario of the claim (five
collinear heading-0 waypoints with one heading-90 waypoint inserted
mid-sequence, threshold 1, no spacing budget) the simplifier keeps 5
waypoints, not the 4 the claim states. -/
theorem C3_inserted_turn_keeps_five_not_four :
    (c3Simplifier.simplify c3WithTurn).length = 5 ∧
    (c3Simplifier.simplify c3WithTurn).length ≠ 4 := by
  rw [simplify_c3WithTurn]
  decide

/-- C3 amended: the five collinear waypoints simplify to exactly the two
endpoints; inserting one heading-90 waypoint mid-sequence raises the kept
count to exactly 5 — the point before the turn, the turn point, the point
after the turn, plus the two endpoints — because the code marks both
neighbours of every heading change that meets the threshold, and the turn
waypoint differs from both neighbours. -/
theorem C3_turn_detection_amended :
    c3Simplifier.simplify c3Collinear = [mkTestWaypoint 0 0 0 0, mkTestWaypoint 1 0 4 0] ∧
    c3Simplifier.simplify c3WithTurn =
      [mkTestWaypoint 0 0 0 0, mkTestWaypoint 1 0 1 0, mkTestWaypoint 2 1 1 90,
       mkTestWaypoint 3 0 2 0, mkTestWaypoint 4 0 4 0] :=
  ⟨simplify_c3Collinear, simplify_c3WithTurn⟩

/-- C2: for every camera profile with positive sensor width, focal length
and image width and every positive altitude, composing altitude_to_gsd with
gsd_to_altitude reproduces the altitude within 1e-6 relative error; in the
field model the composition is exactly the identity. -/
theorem C2_gsd_altitude_roundtrip (c : CameraSpec) (altitude_m : ℚ)
    (ha : 0 < altitude_m) (hs : 0 < c.sensor_width_mm) (hf : 0 < c.focal_length_mm)
    (hw : 0 < c.image_width_px) :
    |PhotogrammetryCalculator.gsd_to_altitude c
        (PhotogrammetryCalculator.altitude_to_gsd c altitude_m) - altitude_m|
      ≤ 1 / 1000000 * altitude_m := by
  have hwq : (0 : ℚ) < (c.image_width_px : ℚ) := by exact_mod_cast hw
  have hid : PhotogrammetryCalculator.gsd_to_altitude c
      (PhotogrammetryCalculator.altitude_to_gsd c altitude_m) = altitude_m := by
    unfold PhotogrammetryCalculator.gsd_to_altitude PhotogrammetryCalculator.altitude_to_gsd
    field_simp
    ring
  rw [hid, sub_self, abs_zero]
  positivity

/-- Witness for C2 at the Mini 4 Pro preset and altitude 40 m. -/
theorem C2_gsd_altitude_roundtrip_witness :
    |PhotogrammetryCalculator.gsd_to_altitude (CAMERA_PRESETS .mini_4_pro)
        (PhotogrammetryCalculator.altitude_to_gsd (CAMERA_PRESETS .mini_4_pro) 40) - 40|
      ≤ 1 / 1000000 * 40 :=
  C2_gsd_altitude_roundtrip (CAMERA_PRESETS .mini_4_pro) 40 (by norm_num)
    (by norm_num [CAMERA_PRESETS]) (by norm_num [CAMERA_PRESETS]) (by norm_num [CAMERA_PRESETS])

/-- C10: whenever start_gimbal_pitch is left as None, evaluating the
default reads the unbound attribute gimbal_pitch_deg and the generate call
raises AttributeError instead of returning a waypoint list, for every
combination of the remaining arguments and any geometric sub-generators. -/
theorem C10_orbit_default_pitch_attribute_error
    (from_polygon : List (ℚ × ℚ) → ℕ → ℚ → ℕ → ℚ → List Waypoint)
    (from_center : (ℚ × ℚ) → ℚ → ℕ → ℚ → ℕ → ℚ → List Waypoint)
    (flight_angle_deg : ℚ) (polygon_coords : Option (List (ℚ × ℚ)))
    (center : Option (ℚ × ℚ)) (radius_m : Option ℚ) (num_orbits : ℕ)
    (altitude_step_m : ℚ) (photos_per_orbit : ℕ) :
    orbit_generate from_polygon from_center (orbitInstanceNumericAttr flight_angle_deg)
      polygon_coords center radius_m num_orbits altitude_step_m photos_per_orbit none
      = .error .attributeError := by
  rfl

/-- C5: serialization of an empty waypoint sequence never yields a packaged
container: create_kmz fails before the zip is assembled (the failure is the
TypeError raised when create_kmz passes the gimbal_pitch keyword to
build_waylines_wpml, which accepts none), for every drone model, mission
name and finish action. -/
theorem C5_empty_mission_never_packaged (dm : DroneModel) (name : Option String)
    (fa : FinishAction) :
    KMZPackager.create_kmz
        { drone_model := dm, waypoints := [], mission_name := name } fa
      = .error .typeError := by
  rfl

/-- C4: at the three-waypoint repository fixture the waylines document
carries the actionId sequence 0,1,0,1,0,1 — the ids restart at 0 inside
every action group — so they are not a document-wide strictly increasing
counter beginning at 1 as the claim (and the repository test
test_action_ids_sequential) demands. -/
theorem C4_action_ids_restart_per_group :
    WPMLBuilder.waylinesActionIds c4Waypoints = [0, 1, 0, 1, 0, 1] ∧
    ¬ ((WPMLBuilder.waylinesActionIds c4Waypoints).Chain' (· < ·) ∧
       (WPMLBuilder.waylinesActionIds c4Waypoints).head? = some 1) := by
  have hids : WPMLBuilder.waylinesActionIds c4Waypoints = [0, 1, 0, 1, 0, 1] := rfl
  refine ⟨hids, fun h => ?_⟩
  rw [hids] at h
  simp at h

/-- A quarter-circumference haversine leg: from longitude 0 to 90 on the
equator. -/
theorem haversine_equator_east : haversine_distance 0 0 0 90 = 6371000 * (Real.pi / 2) := by
  unfold haversine_distance
  have e1 : radians 0 = 0 := by norm_num [radians]
  have e2 : radians (0 - 0) = 0 := by norm_num [radians]
  have e3 : radians (90 - 0) = Real.pi / 2 := by
    norm_num [radians]
    ring
  rw [e1, e2, e3]
  dsimp only
  rw [show Real.pi / 2 / 2 = Real.pi / 4 by ring]
  simp only [zero_div, Real.sin_zero, Real.cos_zero, Real.sin_pi_div_four, one_mul]
  have h5 : (0 : ℝ) ^ 2 + (Real.sqrt 2 / 2) ^ 2 = 1 / 2 := by
    rw [div_pow, Real.sq_sqrt (by norm_num : (0:ℝ) ≤ 2)]
    norm_num
  rw [h5, show (1:ℝ) - 1/2 = 1/2 by norm_num]
  have hx : 0 < Real.sqrt (1/2) := Real.sqrt_pos.mpr (by norm_num)
  unfold atan2
  rw [if_pos hx, div_self (ne_of_gt hx), Real.arctan_one]
  ring

/-- The same leg westwards: from longitude 90 back to 0. -/
theorem haversine_equator_west : haversine_distance 0 90 0 0 = 6371000 * (Real.pi / 2) := by
  unfold haversine_distance
  have e1 : radians 0 = 0 := by norm_num [radians]
  have e2 : radians (0 - 0) = 0 := by norm_num [radians]
  have e3 : radians (0 - 90) = -(Real.pi / 2) := by
    norm_num [radians]
    ring
  rw [e1, e2, e3]
  dsimp only
  rw [show -(Real.pi / 2) / 2 = -(Real.pi / 4) by ring]
  simp only [zero_div, Real.sin_zero, Real.cos_zero, Real.sin_neg, Real.sin_pi_div_four,
    one_mul, neg_sq]
  have h5 : (0 : ℝ) ^ 2 + (Real.sqrt 2 / 2) ^ 2 = 1 / 2 := by
    rw [div_pow, Real.sq_sqrt (by norm_num : (0:ℝ) ≤ 2)]
    norm_num
  rw [h5, show (1:ℝ) - 1/2 = 1/2 by norm_num]
  have hx : 0 < Real.sqrt (1/2) := Real.sqrt_pos.mpr (by norm_num)
  unfold atan2
  rw [if_pos hx, div_self (ne_of_gt hx), Real.arctan_one]
  ring

/-- The quarter circumference exceeds 1 meter. -/
theorem quarter_circumference_ge_one : (1 : ℝ) ≤ 6371000 * (Real.pi / 2) := by
  nlinarith [Real.pi_gt_three]

/-- Three quarter circumferences stay below 10⁹ meters. -/
theorem three_quarters_lt_budget : 3 * (6371000 * (Real.pi / 2)) < 1000000000 := by
  nlinarith [Real.pi_lt_d2]

/-- Raising the threshold can only shrink the critical set: every heading
change clearing the larger threshold clears the smaller one. -/
theorem find_critical_antitone (cfg1 cfg2 : WaypointSimplifier) (ws : List Waypoint)
    (h : cfg1.angle_threshold_deg ≤ cfg2.angle_threshold_deg) :
    cfg2.find_critical_waypoints ws ⊆ cfg1.find_critical_waypoints ws := by
  unfold WaypointSimplifier.find_critical_waypoints
  intro x hx
  rw [Finset.mem_union] at hx ⊢
  rcases hx with hx | hx
  · exact Or.inl hx
  · right
    rw [Finset.mem_biUnion] at hx ⊢
    obtain ⟨i, hi, hxi⟩ := hx
    refine ⟨i, hi, ?_⟩
    split_ifs at hxi with h2
    · rw [if_pos (le_trans h h2)]
      exact hxi
    · simp at hxi

/-- With no truthy spacing budget and more than two waypoints, the
simplified length is the cardinality of the critical set. -/
theorem simplify_length_no_spacing (cfg : WaypointSimplifier) (ws : List Waypoint)
    (hd : qTruthy cfg.max_distance_between_m = false)
    (ht : cfg.max_time_between_s = none)
    (hlen : ¬ ws.length ≤ 2) :
    (cfg.simplify ws).length = (cfg.find_critical_waypoints ws).card := by
  have hcond : (qTruthy cfg.max_distance_between_m || qTruthy cfg.max_time_between_s)
      = false := by
    rw [hd, ht]
    rfl
  unfold WaypointSimplifier.simplify
  rw [if_neg hlen]
  simp only [hcond, Bool.false_eq_true, if_false]
  rw [List.length_mapIdx, Finset.length_sort]

/-- With a truthy spacing budget and more than two waypoints, the
simplified length is the cardinality of the augmented critical set. -/
theorem simplify_length_with_spacing (cfg : WaypointSimplifier) (ws : List Waypoint)
    (hc : (qTruthy cfg.max_distance_between_m || qTruthy cfg.max_time_between_s) = true)
    (hlen : ¬ ws.length ≤ 2) :
    (cfg.simplify ws).length
      = (cfg.add_intermediate_waypoints ws (cfg.find_critical_waypoints ws)).card := by
  unfold WaypointSimplifier.simplify
  rw [if_neg hlen]
  simp only [hc, if_true]
  rw [List.length_mapIdx, Finset.length_sort]

/-- One triggering iteration of the intermediate-waypoint loop. -/
theorem innerStep_trigger (ws : List Waypoint) (m : ℚ) (s : WaypointSimplifier.AccState)
    (j : ℕ)
    (h : (m : ℝ) ≤ s.accumulated_distance +
      haversine_distance (ws.getD (j - 1) default).latitude
        (ws.getD (j - 1) default).longitude (ws.getD j default).latitude
        (ws.getD j default).longitude) :
    WaypointSimplifier.innerStep ws m s j =
      { accumulated_distance := 0, last_added_idx := j, added := insert j s.added } := by
  unfold WaypointSimplifier.innerStep
  dsimp only
  rw [if_pos h]

/-- One non-triggering iteration of the intermediate-waypoint loop. -/
theorem innerStep_no_trigger (ws : List Waypoint) (m : ℚ) (s : WaypointSimplifier.AccState)
    (j : ℕ)
    (h : ¬ (m : ℝ) ≤ s.accumulated_distance +
      haversine_distance (ws.getD (j - 1) default).latitude
        (ws.getD (j - 1) default).longitude (ws.getD j default).latitude
        (ws.getD j default).longitude) :
    WaypointSimplifier.innerStep ws m s j =
      { accumulated_distance := s.accumulated_distance +
          haversine_distance (ws.getD (j - 1) default).latitude
            (ws.getD (j - 1) default).longitude (ws.getD j default).latitude
            (ws.getD j default).longitude,
        last_added_idx := s.last_added_idx, added := s.added } := by
  unfold WaypointSimplifier.innerStep
  dsimp only
  rw [if_neg h]

/-- Critical indices of the C8 fixture at threshold 3: the 5-degree heading
change between the first two waypoints fires. -/
theorem find_critical_c8Low :
    c8Low.find_critical_waypoints c8Waypoints = {0, 1, 5} := by
  unfold WaypointSimplifier.find_critical_waypoints
  rw [show c8Waypoints.length = 6 from rfl,
    show (Finset.Ico 1 6 : Finset ℕ) = insert 1 (insert 2 (insert 3 (insert 4 {5}))) by decide]
  rw [Finset.biUnion_insert, Finset.biUnion_insert, Finset.biUnion_insert,
    Finset.biUnion_insert, Finset.singleton_biUnion]
  norm_num [c8Waypoints, mkTestWaypoint, WaypointSimplifier.headingDiffOf, c8Low]
  decide

/-- Critical indices of the C8 fixture at threshold 10: endpoints only. -/
theorem find_critical_c8High :
    c8High.find_critical_waypoints c8Waypoints = {0, 5} := by
  unfold WaypointSimplifier.find_critical_waypoints
  rw [show c8Waypoints.length = 6 from rfl,
    show (Finset.Ico 1 6 : Finset ℕ) = insert 1 (insert 2 (insert 3 (insert 4 {5}))) by decide]
  rw [Finset.biUnion_insert, Finset.biUnion_insert, Finset.biUnion_insert,
    Finset.biUnion_insert, Finset.singleton_biUnion]
  norm_num [c8Waypoints, mkTestWaypoint, WaypointSimplifier.headingDiffOf, c8High]

/-- The per-segment budget of the high-threshold run: segment start is
waypoint 0, whose speed is 1 m/s, so the 1-second budget is 1 meter. -/
theorem maxDist_c8High : WaypointSimplifier.maxDistFor c8High c8Waypoints 0 = some 1 := by
  unfold WaypointSimplifier.maxDistFor
  norm_num [c8High, qTruthy, c8Waypoints, mkTestWaypoint]

/-- The per-segment budget of the low-threshold run: segment start is
waypoint 1, whose speed is 10⁹ m/s, so the budget is 10⁹ meters. -/
theorem maxDist_c8Low :
    WaypointSimplifier.maxDistFor c8Low c8Waypoints 1 = some 1000000000 := by
  unfold WaypointSimplifier.maxDistFor
  norm_num [c8Low, qTruthy, c8Waypoints, mkTestWaypoint]

/-- With the 1-meter budget, every interior waypoint of the 0–5 segment
becomes critical: each leg measures a quarter circumference. -/
theorem add_intermediate_c8High :
    c8High.add_intermediate_waypoints c8Waypoints {0, 5} = {0, 1, 2, 3, 4, 5} := by
  have l01 : haversine_distance (c8Waypoints.getD (1 - 1) default).latitude
      (c8Waypoints.getD (1 - 1) default).longitude (c8Waypoints.getD 1 default).latitude
      (c8Waypoints.getD 1 default).longitude = 6371000 * (Real.pi / 2) :=
    haversine_equator_east
  have l12 : haversine_distance (c8Waypoints.getD (2 - 1) default).latitude
      (c8Waypoints.getD (2 - 1) default).longitude (c8Waypoints.getD 2 default).latitude
      (c8Waypoints.getD 2 default).longitude = 6371000 * (Real.pi / 2) :=
    haversine_equator_west
  have l23 : haversine_distance (c8Waypoints.getD (3 - 1) default).latitude
      (c8Waypoints.getD (3 - 1) default).longitude (c8Waypoints.getD 3 default).latitude
      (c8Waypoints.getD 3 default).longitude = 6371000 * (Real.pi / 2) :=
    haversine_equator_east
  have l34 : haversine_distance (c8Waypoints.getD (4 - 1) default).latitude
      (c8Waypoints.getD (4 - 1) default).longitude (c8Waypoints.getD 4 default).latitude
      (c8Waypoints.getD 4 default).longitude = 6371000 * (Real.pi / 2) :=
    haversine_equator_west
  unfold WaypointSimplifier.add_intermediate_waypoints
  rw [show ({0, 5} : Finset ℕ) = insert 0 {5} from rfl,
    sortInsertNat (by decide) (by decide), Finset.sort_singleton]
  dsimp only
  rw [show ([0, 5] : List ℕ).zip ([0, 5] : List ℕ).tail = [(0, 5)] from rfl]
  rw [List.foldl_cons, List.foldl_nil]
  dsimp only
  rw [if_neg (by norm_num : ¬ ((5 : ℕ) - 0 ≤ 1)), maxDist_c8High]
  rw [if_pos (by norm_num [qTruthy] : qTruthy (some (1 : ℚ)) = true)]
  simp only [Option.getD_some]
  rw [show List.range' (0 + 1) (5 - (0 + 1)) = [1, 2, 3, 4] from rfl]
  rw [List.foldl_cons, innerStep_trigger _ _ _ _ (by
    dsimp only
    rw [l01]
    push_cast
    linarith [quarter_circumference_ge_one])]
  rw [List.foldl_cons, innerStep_trigger _ _ _ _ (by
    dsimp only
    rw [l12]
    push_cast
    linarith [quarter_circumference_ge_one])]
  rw [List.foldl_cons, innerStep_trigger _ _ _ _ (by
    dsimp only
    rw [l23]
    push_cast
    linarith [quarter_circumference_ge_one])]
  rw [List.foldl_cons, innerStep_trigger _ _ _ _ (by
    dsimp only
    rw [l34]
    push_cast
    linarith [quarter_circumference_ge_one])]
  rw [List.foldl_nil]
  dsimp only
  decide

/-- With the 10⁹-meter budget, no interior waypoint of the 1–5 segment
becomes critical: three quarter-circumference legs stay below the budget,
and the 0–1 pair has no interior. -/
theorem add_intermediate_c8Low :
    c8Low.add_intermediate_waypoints c8Waypoints {0, 1, 5} = {0, 1, 5} := by
  have hDpos : (0 : ℝ) ≤ 6371000 * (Real.pi / 2) := by positivity
  have l12 : haversine_distance (c8Waypoints.getD (2 - 1) default).latitude
      (c8Waypoints.getD (2 - 1) default).longitude (c8Waypoints.getD 2 default).latitude
      (c8Waypoints.getD 2 default).longitude = 6371000 * (Real.pi / 2) :=
    haversine_equator_west
  have l23 : haversine_distance (c8Waypoints.getD (3 - 1) default).latitude
      (c8Waypoints.getD (3 - 1) default).longitude (c8Waypoints.getD 3 default).latitude
      (c8Waypoints.getD 3 default).longitude = 6371000 * (Real.pi / 2) :=
    haversine_equator_east
  have l34 : haversine_distance (c8Waypoints.getD (4 - 1) default).latitude
      (c8Waypoints.getD (4 - 1) default).longitude (c8Waypoints.getD 4 default).latitude
      (c8Waypoints.getD 4 default).longitude = 6371000 * (Real.pi / 2) :=
    haversine_equator_west
  unfold WaypointSimplifier.add_intermediate_waypoints
  rw [show ({0, 1, 5} : Finset ℕ) = insert 0 (insert 1 {5}) from rfl,
    sortInsertNat (by decide) (by decide), sortInsertNat (by decide) (by decide),
    Finset.sort_singleton]
  dsimp only
  rw [show ([0, 1, 5] : List ℕ).zip ([0, 1, 5] : List ℕ).tail = [(0, 1), (1, 5)] from rfl]
  rw [List.foldl_cons]
  dsimp only
  rw [if_pos (by norm_num : (1 : ℕ) - 0 ≤ 1)]
  rw [List.foldl_cons, List.foldl_nil]
  dsimp only
  rw [if_neg (by norm_num : ¬ ((5 : ℕ) - 1 ≤ 1)), maxDist_c8Low]
  rw [if_pos (by norm_num [qTruthy] : qTruthy (some (1000000000 : ℚ)) = true)]
  simp only [Option.getD_some]
  rw [show List.range' (1 + 1) (5 - (1 + 1)) = [2, 3, 4] from rfl]
  rw [List.foldl_cons, innerStep_no_trigger _ _ _ _ (by
    dsimp only
    rw [l12]
    push_cast
    linarith [three_quarters_lt_budget]), l12]
  rw [List.foldl_cons, innerStep_no_trigger _ _ _ _ (by
    dsimp only
    rw [l23]
    push_cast
    linarith [three_quarters_lt_budget]), l23]
  rw [List.foldl_cons, innerStep_no_trigger _ _ _ _ (by
    dsimp only
    rw [l34]
    push_cast
    linarith [three_quarters_lt_budget]), l34]
  rw [List.foldl_nil]
  dsimp only
  decide

/-- The high-threshold run keeps all six waypoints. -/
theorem simplify_c8High_length : (c8High.simplify c8Waypoints).length = 6 := by
  unfold WaypointSimplifier.simplify
  rw [if_neg (by norm_num [c8Waypoints] : ¬ (c8Waypoints.length ≤ 2))]
  dsimp only
  rw [if_pos (by norm_num [qTruthy, c8High] :
    (qTruthy c8High.max_distance_between_m || qTruthy c8High.max_time_between_s) = true)]
  rw [find_critical_c8High, add_intermediate_c8High]
  rw [show ({0, 1, 2, 3, 4, 5} : Finset ℕ) =
      insert 0 (insert 1 (insert 2 (insert 3 (insert 4 {5})))) from rfl,
    sortInsertNat (by decide) (by decide), sortInsertNat (by decide) (by decide),
    sortInsertNat (by decide) (by decide), sortInsertNat (by decide) (by decide),
    sortInsertNat (by decide) (by decide), Finset.sort_singleton, List.length_mapIdx]
  rfl

/-- The low-threshold run keeps only three waypoints. -/
theorem simplify_c8Low_length : (c8Low.simplify c8Waypoints).length = 3 := by
  unfold WaypointSimplifier.simplify
  rw [if_neg (by norm_num [c8Waypoints] : ¬ (c8Waypoints.length ≤ 2))]
  dsimp only
  rw [if_pos (by norm_num [qTruthy, c8Low] :
    (qTruthy c8Low.max_distance_between_m || qTruthy c8Low.max_time_between_s) = true)]
  rw [find_critical_c8Low, add_intermediate_c8Low]
  rw [show ({0, 1, 5} : Finset ℕ) = insert 0 (insert 1 {5}) from rfl,
    sortInsertNat (by decide) (by decide), sortInsertNat (by decide) (by decide),
    Finset.sort_singleton, List.length_mapIdx]
  rfl

/-- C8 counterexample: with a 1-second time budget over the six equator
waypoints whose segment-start speeds differ wildly, raising the angle
threshold from 3 to 10 degrees raises the simplified count from 3 to 6:
the lower threshold keeps waypoint 1 critical, so the long 1–5 segment is
budgeted by the huge speed of waypoint 1, while the higher threshold
causes the whole 0–5 segment to be budgeted by the tiny speed of waypoint
0, making every interior waypoint critical. -/
theorem C8_higher_threshold_keeps_more :
    c8Low.angle_threshold_deg ≤ c8High.angle_threshold_deg ∧
    (c8Low.simplify c8Waypoints).length = 3 ∧
    (c8High.simplify c8Waypoints).length = 6 ∧
    ¬ ((c8High.simplify c8Waypoints).length ≤ (c8Low.simplify c8Waypoints).length) := by
  refine ⟨by norm_num [c8Low, c8High], simplify_c8Low_length, simplify_c8High_length, ?_⟩
  rw [simplify_c8Low_length, simplify_c8High_length]
  norm_num

/-- The flat-earth mission distance of the two C1 waypoints is exactly 10
meters: 1/11132 degree of latitude times 111320 meters per degree. -/
theorem totalDistance_c1Waypoints : KMZPackager.totalDistance c1Waypoints = 10 := by
  have h2 : KMZPackager.totalDistance c1Waypoints =
      KMZPackager.legDistance (c1Waypoints.getD 0 default) (c1Waypoints.getD 1 default) := by
    simp only [c1Waypoints, KMZPackager.totalDistance, add_zero]
    rfl
  rw [h2]
  unfold KMZPackager.legDistance
  have hlat : (((c1Waypoints.getD 1 default).latitude -
      (c1Waypoints.getD 0 default).latitude : ℚ) : ℝ) * 111320 = 10 := by
    norm_num [c1Waypoints]
  have hlon : (((c1Waypoints.getD 1 default).longitude -
      (c1Waypoints.getD 0 default).longitude : ℚ) : ℝ) = 0 := by
    norm_num [c1Waypoints]
  have halt : (((c1Waypoints.getD 1 default).altitude -
      (c1Waypoints.getD 0 default).altitude : ℚ) : ℝ) = 0 := by
    norm_num [c1Waypoints]
  rw [hlat, hlon, halt]
  simp only [zero_mul, ne_eq, OfNat.ofNat_ne_zero, not_false_eq_true, zero_pow, add_zero]
  exact Real.sqrt_sq (by norm_num)

/-- C1: on a mission of two non-degenerate waypoints, create_kmz never
returns the two-entry zip: it fails with the TypeError raised because it
passes the gimbal_pitch keyword to build_waylines_wpml, whose signature
accepts no parameter; meanwhile get_mission_stats does report
waypoint_count 2 and a strictly positive estimated distance, as the claim
and the repository test-suite demand of the packaging path as well. -/
theorem C1_create_kmz_raises_type_error :
    KMZPackager.create_kmz c1Packager .goHome = .error .typeError ∧
    (KMZPackager.get_mission_stats c1Packager).waypoint_count = 2 ∧
    0 < (KMZPackager.get_mission_stats c1Packager).estimated_distance_m := by
  have hstats : KMZPackager.get_mission_stats c1Packager =
      { waypoint_count := 2
        estimated_distance_m := pyRound (KMZPackager.totalDistance c1Waypoints) 1
        estimated_photos := 2 } := rfl
  refine ⟨rfl, ?_, ?_⟩
  · rw [hstats]
  · rw [hstats]
    show 0 < pyRound (KMZPackager.totalDistance c1Waypoints) 1
    rw [totalDistance_c1Waypoints]
    norm_num [pyRound, pyRoundInt, Int.fract]

/-- Position 0 is always critical. -/
theorem zero_mem_find_critical (cfg : WaypointSimplifier) (ws : List Waypoint) :
    0 ∈ cfg.find_critical_waypoints ws := by
  unfold WaypointSimplifier.find_critical_waypoints
  exact Finset.mem_union_left _ (Finset.mem_insert_self 0 _)

/-- The last position is always critical. -/
theorem last_mem_find_critical (cfg : WaypointSimplifier) (ws : List Waypoint) :
    ws.length - 1 ∈ cfg.find_critical_waypoints ws := by
  unfold WaypointSimplifier.find_critical_waypoints
  exact Finset.mem_union_left _ (Finset.mem_insert_of_mem (Finset.mem_singleton_self _))

/-- Critical indices are valid positions of a non-empty list. -/
theorem find_critical_subset_range (cfg : WaypointSimplifier) (ws : List Waypoint)
    (hne : ws ≠ []) :
    cfg.find_critical_waypoints ws ⊆ Finset.range ws.length := by
  have hlen : 0 < ws.length := List.length_pos.mpr hne
  unfold WaypointSimplifier.find_critical_waypoints
  apply Finset.union_subset
  · intro x hx
    rcases Finset.mem_insert.mp hx with rfl | hx
    · exact Finset.mem_range.mpr hlen
    · rw [Finset.mem_singleton] at hx
      subst hx
      exact Finset.mem_range.mpr (by omega)
  · intro x hx
    rw [Finset.mem_biUnion] at hx
    obtain ⟨i, hi, hxi⟩ := hx
    rw [Finset.mem_Ico] at hi
    split_ifs at hxi
    · rcases Finset.mem_insert.mp hxi with rfl | hxi
      · exact Finset.mem_range.mpr (by omega)
      · rw [Finset.mem_singleton] at hxi
        subst hxi
        exact Finset.mem_range.mpr hi.2
    · simp at hxi

/-- A fold whose step never removes elements preserves set membership. -/
theorem foldl_step_superset {β : Type} (step : Finset ℕ → β → Finset ℕ)
    (hstep : ∀ acc p, acc ⊆ step acc p) :
    ∀ (l : List β) (acc : Finset ℕ), acc ⊆ l.foldl step acc := by
  intro l
  induction l with
  | nil => intro acc; simp
  | cons p l ih =>
    intro acc
    rw [List.foldl_cons]
    exact (hstep acc p).trans (ih _)

/-- The intermediate-waypoint pass only ever adds indices. -/
theorem subset_add_intermediate (cfg : WaypointSimplifier) (ws : List Waypoint)
    (critical : Finset ℕ) :
    critical ⊆ cfg.add_intermediate_waypoints ws critical := by
  unfold WaypointSimplifier.add_intermediate_waypoints
  apply foldl_step_superset
  intro acc p
  dsimp only
  split_ifs <;> simp [Finset.subset_union_left]

/-- The indices inserted by the inner accumulation loop all come from the
scanned index list. -/
theorem innerfold_added_subset (ws : List Waypoint) (m : ℚ) :
    ∀ (l : List ℕ) (s : WaypointSimplifier.AccState),
      ((l.foldl (WaypointSimplifier.innerStep ws m) s).added) ⊆ s.added ∪ l.toFinset := by
  intro l
  induction l with
  | nil => intro s; simp
  | cons j l ih =>
    intro s
    rw [List.foldl_cons]
    refine (ih _).trans ?_
    unfold WaypointSimplifier.innerStep
    dsimp only
    split_ifs
    · intro x hx
      rw [Finset.mem_union] at hx ⊢
      rcases hx with hx | hx
      · rcases Finset.mem_insert.mp hx with rfl | hx
        · right; simp
        · exact Or.inl hx
      · right
        simp only [List.toFinset_cons, Finset.mem_insert]
        exact Or.inr (by simpa using hx)
    · intro x hx
      rw [Finset.mem_union] at hx ⊢
      rcases hx with hx | hx
      · exact Or.inl hx
      · right
        simp only [List.toFinset_cons, Finset.mem_insert]
        exact Or.inr (by simpa using hx)

/-- A fold whose step stays within the accumulator plus a fixed range
keeps the accumulator within the range. -/
theorem foldl_bounded {β : Type} (step : Finset ℕ → β → Finset ℕ) (n : ℕ) :
    ∀ l : List β, (∀ (acc : Finset ℕ) (p : β), p ∈ l → step acc p ⊆ acc ∪ Finset.range n) →
      ∀ acc : Finset ℕ, acc ⊆ Finset.range n → l.foldl step acc ⊆ Finset.range n := by
  intro l
  induction l with
  | nil => intro _ acc h; simpa using h
  | cons p l ih =>
    intro hstep acc h
    rw [List.foldl_cons]
    apply ih (fun acc q hq => hstep acc q (List.mem_cons_of_mem p hq))
    refine (hstep acc p (List.mem_cons_self p l)).trans ?_
    exact Finset.union_subset h Finset.Subset.rfl

/-- The intermediate-waypoint pass stays within the valid positions. -/
theorem add_intermediate_subset_range (cfg : WaypointSimplifier) (ws : List Waypoint)
    (critical : Finset ℕ) (hs : critical ⊆ Finset.range ws.length) :
    cfg.add_intermediate_waypoints ws critical ⊆ Finset.range ws.length := by
  unfold WaypointSimplifier.add_intermediate_waypoints
  apply foldl_bounded _ ws.length _ _ critical hs
  intro acc p hp
  have hp2 : p.2 ∈ critical := by
    have h2 := (List.of_mem_zip hp).2
    exact (Finset.mem_sort _).mp (List.mem_of_mem_tail h2)
  have hp2r := Finset.mem_range.mp (hs hp2)
  dsimp only
  split_ifs with hskip htruthy
  · exact Finset.subset_union_left
  · apply Finset.union_subset Finset.subset_union_left
    have hsub := innerfold_added_subset ws
      ((cfg.maxDistFor ws p.1).getD 0)
      (List.range' (p.1 + 1) (p.2 - (p.1 + 1)))
      { accumulated_distance := 0, last_added_idx := p.1, added := ∅ }
    refine hsub.trans ?_
    intro x hx
    rw [Finset.mem_union] at hx
    rcases hx with hx | hx
    · simp at hx
    · rw [List.mem_toFinset, List.mem_range'_1] at hx
      exact Finset.mem_union_right _ (Finset.mem_range.mpr (by omega))
  · exact Finset.subset_union_left

/-- headI of a nonempty list as indexed access. -/
theorem headI_eq_get {α : Type} [Inhabited α] (l : List α) (h : 0 < l.length) :
    l.headI = l.get ⟨0, h⟩ := by
  cases l with
  | nil => simp at h
  | cons a t => rfl

/-- getLastD of a nonempty list as indexed access. -/
theorem getLastD_eq_get {α : Type} [Inhabited α] (l : List α) (h : 0 < l.length) :
    l.getLastD default = l.get ⟨l.length - 1, by omega⟩ := by
  rw [List.getLastD_eq_getLast?, List.getLast?_eq_getElem?]
  rw [List.getElem?_eq_getElem (by omega : l.length - 1 < l.length)]
  simp [List.get_eq_getElem]

/-- Core of the endpoint-preservation argument: emitting the waypoints of
any critical set that contains 0 and the last position, lies within range,
and is traversed in sorted order with re-indexing, keeps the first and
last waypoints (up to the index field) equal to the first and last input
waypoints. -/
theorem endpoints_core (ws : List Waypoint) (C : Finset ℕ) (hne : ws ≠ [])
    (h0 : 0 ∈ C) (hlastm : ws.length - 1 ∈ C) (hsub : C ⊆ Finset.range ws.length) :
    ((C.sort (· ≤ ·)).mapIdx (fun i oi =>
        WaypointSimplifier.reindexed i (ws.getD oi default))) ≠ [] ∧
    WaypointSimplifier.reindexed 0 (((C.sort (· ≤ ·)).mapIdx (fun i oi =>
        WaypointSimplifier.reindexed i (ws.getD oi default))).headI) =
      WaypointSimplifier.reindexed 0 ws.headI ∧
    WaypointSimplifier.reindexed 0 (((C.sort (· ≤ ·)).mapIdx (fun i oi =>
        WaypointSimplifier.reindexed i (ws.getD oi default))).getLastD default) =
      WaypointSimplifier.reindexed 0 (ws.getLastD default) := by
  have hCne : C.Nonempty := ⟨0, h0⟩
  have hwpos : 0 < ws.length := List.length_pos.mpr hne
  set f := fun (i oi : ℕ) => WaypointSimplifier.reindexed i (ws.getD oi default) with hf
  set l := C.sort (· ≤ ·) with hl
  have hllen : 0 < l.length := by
    rw [hl, Finset.length_sort]
    exact Finset.card_pos.mpr hCne
  have hget0 : l.get ⟨0, hllen⟩ = 0 := by
    have hmin : C.min' hCne = 0 := le_antisymm (Finset.min'_le _ _ h0) (Nat.zero_le _)
    have hms := Finset.min'_eq_sorted_zero (s := C) (h := hCne)
    rw [hmin] at hms
    rw [List.get_eq_getElem]
    exact hms.symm
  have hgetlast : l.get ⟨l.length - 1, by omega⟩ = ws.length - 1 := by
    have hmax : C.max' hCne = ws.length - 1 := by
      refine le_antisymm (Finset.max'_le _ _ _ ?_) (Finset.le_max' _ _ hlastm)
      intro b hb
      have := Finset.mem_range.mp (hsub hb)
      omega
    have hms := Finset.max'_eq_sorted_last (s := C) (h := hCne)
    rw [hmax] at hms
    rw [List.get_eq_getElem]
    exact hms.symm
  have hws0 : ws.getD 0 default = ws.headI := by
    cases ws with
    | nil => rfl
    | cons a t => rfl
  have hwslast : ws.getD (ws.length - 1) default = ws.getLastD default := by
    rw [getLastD_eq_get ws hwpos, List.getD_eq_getElem ws default (by omega),
      List.get_eq_getElem]
    rfl
  refine ⟨?_, ?_, ?_⟩
  · apply List.length_pos.mp
    rw [List.length_mapIdx]
    omega
  · rw [headI_eq_get (l.mapIdx f) (by rw [List.length_mapIdx]; exact hllen)]
    rw [List.get_mapIdx l f 0 hllen, hget0, hf]
    dsimp only
    rw [hws0]
    rfl
  · rw [getLastD_eq_get (l.mapIdx f) (by rw [List.length_mapIdx]; exact hllen)]
    have hidx : (l.mapIdx f).length - 1 < l.length := by
      rw [List.length_mapIdx]
      omega
    rw [List.get_mapIdx l f ((l.mapIdx f).length - 1) hidx]
    have hval : l.get ⟨(l.mapIdx f).length - 1, hidx⟩ = ws.length - 1 := by
      have : (l.mapIdx f).length - 1 = l.length - 1 := by
        rw [List.length_mapIdx]
      rw [← hgetlast]
      congr 1
      exact Fin.ext this
    rw [hval, hf]
    dsimp only
    rw [hwslast]
    rfl

/-- Re-indexing by list position always yields the index sequence 0..n-1. -/
theorem mapIdx_reindex_indices (l : List ℕ) (g : ℕ → Waypoint) :
    (l.mapIdx (fun i oi => WaypointSimplifier.reindexed i (g oi))).map
        (fun wp => wp.index) = List.range l.length := by
  apply List.ext_get
  · simp [List.length_mapIdx]
  · intro i h1 h2
    rw [List.get_eq_getElem, List.getElem_map,
      ← List.get_eq_getElem _ ⟨i, by simpa using h1⟩,
      List.get_mapIdx l _ i (by simpa [List.length_mapIdx] using
        (by simpa using h1 : i < (l.mapIdx (fun i oi =>
          WaypointSimplifier.reindexed i (g oi))).length))]
    simp [WaypointSimplifier.reindexed, List.getElem_range]

/-- The simplifier preserves index contiguity: short lists are returned
unchanged, longer lists are re-indexed from 0. -/
theorem simplify_preserves_indices (cfg : WaypointSimplifier) (ws : List Waypoint)
    (h : indicesContiguous ws) : indicesContiguous (cfg.simplify ws) := by
  unfold WaypointSimplifier.simplify
  split_ifs with hlen hsp
  · exact h
  all_goals
    dsimp only
    unfold indicesContiguous
    rw [List.length_mapIdx, mapIdx_reindex_indices]

/-- Any fold that appends one waypoint carrying the running counter as its
index, and increments the counter, preserves the invariant that the
emitted indices are exactly 0..counter-1. -/
theorem emit_fold_indices {β : Type} (w : (ℕ × List Waypoint) → β → Waypoint)
    (hw : ∀ st b, (w st b).index = st.1) :
    ∀ (l : List β) (st : ℕ × List Waypoint),
      st.2.map (fun wp => wp.index) = List.range st.1 →
      ((l.foldl (fun st b => (st.1 + 1, st.2 ++ [w st b])) st).2).map (fun wp => wp.index)
        = List.range ((l.foldl (fun st b => (st.1 + 1, st.2 ++ [w st b])) st).1) := by
  intro l
  induction l with
  | nil => intro st h; simpa using h
  | cons b l ih =>
    intro st h
    rw [List.foldl_cons]
    apply ih
    simp only [List.map_append, h, hw, List.map_cons, List.map_nil]
    rw [← List.range_succ]

/-- The grid waypoint emission produces contiguous indices for every
flight-parameter set, heading function and line family. -/
theorem lines_to_waypoints_indices (fp : FlightParams)
    (heading_of : (ℚ × ℚ) → (ℚ × ℚ) → ℚ) (lines : List SLine) :
    indicesContiguous (lines_to_waypoints fp heading_of lines) := by
  unfold lines_to_waypoints indicesContiguous
  suffices h : ∀ st : ℕ × List Waypoint,
      st.2.map (fun wp => wp.index) = List.range st.1 →
      ((lines.foldl (fun (st : ℕ × List Waypoint) line =>
        if line.coords.length < 2 then st
        else
          let heading := heading_of (line.coords.getD 0 (0, 0)) (line.coords.getLastD (0, 0))
          let num_photos : ℕ := (max 2 (pyInt (line.length / fp.photo_spacing_m) + 1)).toNat
          (List.range num_photos).foldl (fun (st : ℕ × List Waypoint) j =>
            let fraction : ℚ := if 1 < num_photos then (j : ℚ) / ((num_photos : ℚ) - 1) else 0
            let point := line.interp fraction
            (st.1 + 1, st.2 ++ [create_waypoint fp st.1 point.1 point.2 heading (-90) true]))
            st) st).2).map (fun wp => wp.index)
        = List.range ((lines.foldl (fun (st : ℕ × List Waypoint) line =>
          if line.coords.length < 2 then st
          else
            let heading := heading_of (line.coords.getD 0 (0, 0)) (line.coords.getLastD (0, 0))
            let num_photos : ℕ := (max 2 (pyInt (line.length / fp.photo_spacing_m) + 1)).toNat
            (List.range num_photos).foldl (fun (st : ℕ × List Waypoint) j =>
              let fraction : ℚ := if 1 < num_photos then (j : ℚ) / ((num_photos : ℚ) - 1) else 0
              let point := line.interp fraction
              (st.1 + 1, st.2 ++ [create_waypoint fp st.1 point.1 point.2 heading (-90) true]))
              st) st).1) by
    have h0 := h (0, []) (by simp)
    have hlen := congrArg List.length h0
    simp only [List.length_map, List.length_range] at hlen
    rw [h0, hlen]
  induction lines with
  | nil => intro st h; simpa using h
  | cons line rest ih =>
    intro st h
    rw [List.foldl_cons]
    apply ih
    split_ifs with hshort
    · exact h
    · exact emit_fold_indices _ (fun st b => rfl) _ st h

/-- The double-grid concatenation with shifted second-pass indices
produces contiguous indices whenever each grid pass does. -/
theorem double_grid_indices (grid_generate : ℚ → List Waypoint)
    (flight_angle_deg : ℚ) (polygon_coords_len : ℕ)
    (hg : ∀ a, indicesContiguous (grid_generate a)) :
    indicesContiguous (double_grid_generate grid_generate flight_angle_deg
      polygon_coords_len) := by
  unfold double_grid_generate indicesContiguous
  split_ifs
  · simp
  · dsimp only
    rw [List.map_append, List.length_append, List.map_map, List.length_map]
    have h1 := hg flight_angle_deg
    have h2 := hg (qMod (flight_angle_deg + 90) 360)
    unfold indicesContiguous at h1 h2
    rw [h1, List.range_add]
    congr 1
    have h4 : List.map ((fun wp => wp.index) ∘ (fun wp =>
        ({ wp with index := wp.index + (grid_generate flight_angle_deg).length } : Waypoint)))
        (grid_generate (qMod (flight_angle_deg + 90) 360)) =
        List.map (fun i => i + (grid_generate flight_angle_deg).length)
          (List.map (fun wp => wp.index) (grid_generate (qMod (flight_angle_deg + 90) 360))) := by
      rw [List.map_map]
      apply List.map_congr_left
      intro a _
      rfl
    rw [h4, h2]
    apply List.map_congr_left
    intro a _
    omega

/-- A fold from the fresh counter state whose every step preserves the
indices-match-counter invariant emits a contiguous list. -/
theorem emit_fold_contiguous {β : Type} (f : (ℕ × List Waypoint) → β → (ℕ × List Waypoint))
    (hf : ∀ st b, st.2.map (fun wp => wp.index) = List.range st.1 →
      ((f st b).2).map (fun wp => wp.index) = List.range (f st b).1) (l : List β) :
    indicesContiguous ((l.foldl f (0, [])).2) := by
  have h : ∀ (l2 : List β) (st : ℕ × List Waypoint),
      st.2.map (fun wp => wp.index) = List.range st.1 →
      ((l2.foldl f st).2).map (fun wp => wp.index) = List.range (l2.foldl f st).1 := by
    intro l2
    induction l2 with
    | nil => intro st h; exact h
    | cons b t ih =>
      intro st h
      rw [List.foldl_cons]
      exact ih _ (hf st b h)
  have h0 := h l (0, []) (by simp)
  have hlen := congrArg List.length h0
  simp only [List.length_map, List.length_range] at hlen
  unfold indicesContiguous
  rw [h0, hlen]

/-- The corridor emission coincides with the grid emission (the gimbal
default -90 equals the grid's explicit -90), so it is contiguous for
every flight-parameter set, heading function and line family. -/
theorem corridor_lines_to_waypoints_indices (fp : FlightParams)
    (heading_of : (ℚ × ℚ) → (ℚ × ℚ) → ℚ) (lines : List SLine) :
    indicesContiguous (corridor_lines_to_waypoints fp heading_of lines) := by
  have h : corridor_lines_to_waypoints fp heading_of lines
      = lines_to_waypoints fp heading_of lines := rfl
  rw [h]
  exact lines_to_waypoints_indices fp heading_of lines

/-- The orbit waypoint emission produces contiguous indices for every
flight-parameter set, placement function and orbit configuration. -/
theorem generate_orbit_indices (fp : FlightParams) (position_of : ℚ → ℚ × ℚ)
    (num_orbits : ℕ) (altitude_step_m : ℚ) (photos_per_orbit : ℕ)
    (start_gimbal_pitch : ℚ) :
    indicesContiguous (generate_orbit fp position_of num_orbits altitude_step_m
      photos_per_orbit start_gimbal_pitch) := by
  unfold generate_orbit
  apply emit_fold_contiguous
  intro st orbit_num h
  dsimp only
  exact emit_fold_indices _ (fun st b => rfl) _ st h

/-- The center/radius fallback branch of the orbit generator returns only
contiguous lists when the geometric sub-generator does. -/
theorem orbit_center_branch_indices
    (from_center : (ℚ × ℚ) → ℚ → ℕ → ℚ → ℕ → ℚ → List Waypoint)
    (hfc : ∀ c r n a p g, indicesContiguous (from_center c r n a p g))
    (center : Option (ℚ × ℚ)) (radius_m : Option ℚ) (num_orbits : ℕ)
    (altitude_step_m : ℚ) (photos_per_orbit : ℕ) (gimbal_pitch : ℚ) :
    indicesContiguous (orbit_center_branch from_center center radius_m num_orbits
      altitude_step_m photos_per_orbit gimbal_pitch) := by
  unfold orbit_center_branch
  rcases center with _ | c
  · exact (by decide : indicesContiguous [])
  · rcases radius_m with _ | r
    · exact (by decide : indicesContiguous [])
    · dsimp only
      split_ifs
      · exact hfc c r num_orbits altitude_step_m photos_per_orbit gimbal_pitch
      · exact (by decide : indicesContiguous [])

/-- The orbit dispatch (generate) returns only contiguous lists when both
geometric sub-generators do: every successful branch is one of the
sub-generators or the empty fallback. -/
theorem orbit_generate_indices
    (from_polygon : List (ℚ × ℚ) → ℕ → ℚ → ℕ → ℚ → List Waypoint)
    (from_center : (ℚ × ℚ) → ℚ → ℕ → ℚ → ℕ → ℚ → List Waypoint)
    (hfp : ∀ pc n a p g, indicesContiguous (from_polygon pc n a p g))
    (hfc : ∀ c r n a p g, indicesContiguous (from_center c r n a p g))
    (self_attr : String → Option ℚ) (polygon_coords : Option (List (ℚ × ℚ)))
    (center : Option (ℚ × ℚ)) (radius_m : Option ℚ) (num_orbits : ℕ)
    (altitude_step_m : ℚ) (photos_per_orbit : ℕ) (start_gimbal_pitch : Option ℚ)
    (ws : List Waypoint)
    (hok : orbit_generate from_polygon from_center self_attr polygon_coords center
      radius_m num_orbits altitude_step_m photos_per_orbit start_gimbal_pitch
      = .ok ws) :
    indicesContiguous ws := by
  unfold orbit_generate at hok
  cases hres : (match start_gimbal_pitch with
      | some gp => Except.ok gp
      | none => getattrOrError self_attr "gimbal_pitch_deg") with
  | error e => rw [hres] at hok; exact absurd hok (by simp)
  | ok gp =>
    rw [hres] at hok
    simp only at hok
    rcases polygon_coords with _ | pc
    · simp only at hok
      rw [Except.ok.injEq] at hok
      rw [← hok]
      exact orbit_center_branch_indices from_center hfc center radius_m num_orbits
        altitude_step_m photos_per_orbit gp
    · simp only at hok
      split_ifs at hok
      · rw [Except.ok.injEq] at hok
        rw [← hok]
        exact hfp pc num_orbits altitude_step_m photos_per_orbit gp
      · rw [Except.ok.injEq] at hok
        rw [← hok]
        exact orbit_center_branch_indices from_center hfc center radius_m num_orbits
          altitude_step_m photos_per_orbit gp

/-- C7: for every non-empty waypoint sequence and every simplifier
configuration (threshold and spacing budgets), the simplified sequence is
non-empty and its first and last waypoints agree with the first and last
input waypoints on every field except the reassigned index (positions,
altitude, heading, gimbal pitch, speed and photo flag all equal). -/
theorem C7_simplify_preserves_endpoints (cfg : WaypointSimplifier) (ws : List Waypoint)
    (hne : ws ≠ []) :
    cfg.simplify ws ≠ [] ∧
    WaypointSimplifier.reindexed 0 ((cfg.simplify ws).headI) =
      WaypointSimplifier.reindexed 0 ws.headI ∧
    WaypointSimplifier.reindexed 0 ((cfg.simplify ws).getLastD default) =
      WaypointSimplifier.reindexed 0 (ws.getLastD default) := by
  unfold WaypointSimplifier.simplify
  split_ifs with hlen hsp
  · exact ⟨hne, rfl, rfl⟩
  · exact endpoints_core ws _ hne
      (subset_add_intermediate cfg ws _ (zero_mem_find_critical cfg ws))
      (subset_add_intermediate cfg ws _ (last_mem_find_critical cfg ws))
      (add_intermediate_subset_range cfg ws _ (find_critical_subset_range cfg ws hne))
  · exact endpoints_core ws _ hne (zero_mem_find_critical cfg ws)
      (last_mem_find_critical cfg ws) (find_critical_subset_range cfg ws hne)

/-- Witness for C7 at the collinear fixture with the threshold-1
configuration. -/
theorem C7_simplify_preserves_endpoints_witness :
    c3Simplifier.simplify c3Collinear ≠ [] ∧
    WaypointSimplifier.reindexed 0 ((c3Simplifier.simplify c3Collinear).headI) =
      WaypointSimplifier.reindexed 0 c3Collinear.headI ∧
    WaypointSimplifier.reindexed 0 ((c3Simplifier.simplify c3Collinear).getLastD default) =
      WaypointSimplifier.reindexed 0 (c3Collinear.getLastD default) :=
  C7_simplify_preserves_endpoints c3Simplifier c3Collinear (by decide)

/-- C9: index contiguity across every pattern generator and the
simplifier. First conjunct: the grid emission (_lines_to_waypoints)
numbers its waypoints 0..n-1 in emission order whatever the geometry
produced by the external libraries. Second conjunct: the double grid
keeps contiguity when the underlying grid passes are contiguous. Third
conjunct: the corridor emission (its own _lines_to_waypoints) is
contiguous. Fourth conjunct: the orbit emission (_generate_orbit) is
contiguous for every orbit configuration. Fifth conjunct: the orbit
dispatch (generate) returns only contiguous lists when its geometric
sub-generators do, covering the polygon branch, the center branch and the
empty fallback. Sixth conjunct: the simplifier keeps contiguity of its
input (re-indexing from 0 when it rebuilds the list). -/
theorem C9_index_contiguity :
    (∀ (fp : FlightParams) (heading_of : (ℚ × ℚ) → (ℚ × ℚ) → ℚ) (lines : List SLine),
      indicesContiguous (lines_to_waypoints fp heading_of lines)) ∧
    (∀ (grid_generate : ℚ → List Waypoint) (angle : ℚ) (n : ℕ),
      (∀ a, indicesContiguous (grid_generate a)) →
      indicesContiguous (double_grid_generate grid_generate angle n)) ∧
    (∀ (fp : FlightParams) (heading_of : (ℚ × ℚ) → (ℚ × ℚ) → ℚ) (lines : List SLine),
      indicesContiguous (corridor_lines_to_waypoints fp heading_of lines)) ∧
    (∀ (fp : FlightParams) (position_of : ℚ → ℚ × ℚ) (num_orbits : ℕ)
      (altitude_step_m : ℚ) (photos_per_orbit : ℕ) (start_gimbal_pitch : ℚ),
      indicesContiguous (generate_orbit fp position_of num_orbits altitude_step_m
        photos_per_orbit start_gimbal_pitch)) ∧
    (∀ (from_polygon : List (ℚ × ℚ) → ℕ → ℚ → ℕ → ℚ → List Waypoint)
      (from_center : (ℚ × ℚ) → ℚ → ℕ → ℚ → ℕ → ℚ → List Waypoint),
      (∀ pc n a p g, indicesContiguous (from_polygon pc n a p g)) →
      (∀ c r n a p g, indicesContiguous (from_center c r n a p g)) →
      ∀ (self_attr : String → Option ℚ) (polygon_coords : Option (List (ℚ × ℚ)))
        (center : Option (ℚ × ℚ)) (radius_m : Option ℚ) (num_orbits : ℕ)
        (altitude_step_m : ℚ) (photos_per_orbit : ℕ)
        (start_gimbal_pitch : Option ℚ) (ws : List Waypoint),
        orbit_generate from_polygon from_center self_attr polygon_coords center
          radius_m num_orbits altitude_step_m photos_per_orbit start_gimbal_pitch
          = .ok ws → indicesContiguous ws) ∧
    (∀ (cfg : WaypointSimplifier) (ws : List Waypoint),
      indicesContiguous ws → indicesContiguous (cfg.simplify ws)) :=
  ⟨lines_to_waypoints_indices, double_grid_indices, corridor_lines_to_waypoints_indices,
   generate_orbit_indices,
   fun fp fc hfp hfc => orbit_generate_indices fp fc hfp hfc,
   simplify_preserves_indices⟩

/-- Witness for C9: the double grid over empty passes, the simplifier
over the contiguous collinear fixture, and the orbit dispatch at the
empty-fallback input with empty sub-generators. -/
theorem C9_index_contiguity_witness :
    indicesContiguous (double_grid_generate (fun _ => []) 0 3) ∧
    indicesContiguous (c3Simplifier.simplify c3Collinear) ∧
    indicesContiguous ([] : List Waypoint) :=
  ⟨C9_index_contiguity.2.1 (fun _ => []) 0 3
      (fun _ => (by decide : indicesContiguous [])),
   C9_index_contiguity.2.2.2.2.2 c3Simplifier c3Collinear (by decide),
   C9_index_contiguity.2.2.2.2.1 (fun _ _ _ _ _ => []) (fun _ _ _ _ _ _ => [])
      (fun _ _ _ _ _ => (by decide : indicesContiguous []))
      (fun _ _ _ _ _ _ => (by decide : indicesContiguous []))
      (orbitInstanceNumericAttr 0) none none none 1 10 24 (some (-45)) [] rfl⟩

/-- C6 counterexample: with the simple camera, target GSD 2 cm/px and
overlaps 75/65, the altitude is 40 m, the spacings are 20 m and 28 m, and
for a 1000 m² area the 20%-margin quotient is 15/7; the code stores
int(15/7) = 2 while the claim demands ceil(15/7) = 3. -/
theorem C6_counterexample :
    (PhotogrammetryCalculator.calculate_flight_params simpleCamera 2 75 65 false
        (some 1000)).estimated_photos = 2 ∧
    ⌈(1000 : ℚ) /
        ((PhotogrammetryCalculator.calculate_spacing simpleCamera
            (PhotogrammetryCalculator.gsd_to_altitude simpleCamera 2) 75 65).1 *
          (PhotogrammetryCalculator.calculate_spacing simpleCamera
            (PhotogrammetryCalculator.gsd_to_altitude simpleCamera 2) 75 65).2)
        * (12 / 10)⌉ = 3 := by
  constructor
  · unfold PhotogrammetryCalculator.calculate_flight_params
    norm_num [PhotogrammetryCalculator.gsd_to_altitude,
      PhotogrammetryCalculator.altitude_to_gsd, PhotogrammetryCalculator.calculate_footprint,
      PhotogrammetryCalculator.calculate_spacing, PhotogrammetryCalculator.calculate_max_speed,
      simpleCamera, pyInt]
  · norm_num [PhotogrammetryCalculator.calculate_spacing,
      PhotogrammetryCalculator.calculate_footprint, PhotogrammetryCalculator.gsd_to_altitude,
      simpleCamera, Int.ceil_eq_iff]

/-- C6 amended: whenever a positive area magnitude is supplied and the
(unrounded) effective coverage photo_spacing × line_spacing is positive,
calculate_flight_params stores the 20%-margin quotient truncated toward
zero — its floor — rather than rounded up to the next integer. -/
theorem C6_estimated_photos_is_floor (c : CameraSpec) (target_gsd front so : ℚ)
    (use48 : Bool) (a : ℚ) (ha : 0 < a)
    (hcov : 0 < (PhotogrammetryCalculator.calculate_spacing c
        (PhotogrammetryCalculator.gsd_to_altitude c target_gsd) front so).1 *
      (PhotogrammetryCalculator.calculate_spacing c
        (PhotogrammetryCalculator.gsd_to_altitude c target_gsd) front so).2) :
    (PhotogrammetryCalculator.calculate_flight_params c target_gsd front so use48
        (some a)).estimated_photos =
      ⌊a / ((PhotogrammetryCalculator.calculate_spacing c
          (PhotogrammetryCalculator.gsd_to_altitude c target_gsd) front so).1 *
        (PhotogrammetryCalculator.calculate_spacing c
          (PhotogrammetryCalculator.gsd_to_altitude c target_gsd) front so).2) * (12 / 10)⌋ := by
  have hne : a ≠ 0 := ne_of_gt ha
  have hq : 0 ≤ a / ((PhotogrammetryCalculator.calculate_spacing c
      (PhotogrammetryCalculator.gsd_to_altitude c target_gsd) front so).1 *
    (PhotogrammetryCalculator.calculate_spacing c
      (PhotogrammetryCalculator.gsd_to_altitude c target_gsd) front so).2) * (12 / 10) := by
    positivity
  simp only [PhotogrammetryCalculator.calculate_flight_params, hne, ha, ne_eq,
    not_false_eq_true, and_self, if_true, ite_true, pyInt, hq, if_pos]

/-- Witness for the amended C6 at the simple camera, GSD 2, overlaps 75/65
and area 1000 m². -/
theorem C6_estimated_photos_is_floor_witness :
    (PhotogrammetryCalculator.calculate_flight_params simpleCamera 2 75 65 false
        (some 1000)).estimated_photos =
      ⌊(1000 : ℚ) / ((PhotogrammetryCalculator.calculate_spacing simpleCamera
          (PhotogrammetryCalculator.gsd_to_altitude simpleCamera 2) 75 65).1 *
        (PhotogrammetryCalculator.calculate_spacing simpleCamera
          (PhotogrammetryCalculator.gsd_to_altitude simpleCamera 2) 75 65).2) * (12 / 10)⌋ :=
  C6_estimated_photos_is_floor simpleCamera 2 75 65 false 1000 (by norm_num)
    (by norm_num [PhotogrammetryCalculator.calculate_spacing,
      PhotogrammetryCalculator.calculate_footprint,
      PhotogrammetryCalculator.gsd_to_altitude, simpleCamera])

/-! ## C8: threshold monotonicity with a distance budget

The counterexample to the unrestricted claim uses a time budget, whose
per-segment conversion to meters depends on the segment-start waypoint
speed. With no time budget the per-segment budget is the constant distance
budget, and the count is monotone: removing one critical index merges two
segments, and the greedy accumulation over the merged gap list places at
most one more intermediate index than the two segments place separately. -/

/-- atan2 is nonnegative on the closed first quadrant. -/
theorem atan2_nonneg (y x : ℝ) (hy : 0 ≤ y) (hx : 0 ≤ x) : 0 ≤ atan2 y x := by
  unfold atan2
  split_ifs with h1 h2 h3 h4 h5
  · rw [← Real.arctan_zero]
    exact Real.arctan_strictMono.monotone (div_nonneg hy h1.le)
  · exact absurd h2.1 (not_lt.mpr hx)
  · exact absurd h3 (not_lt.mpr hx)
  · linarith [Real.pi_pos]
  · exact absurd h5.2 (not_lt.mpr hy)
  · exact le_rfl

/-- The haversine distance is nonnegative. -/
theorem haversine_nonneg (lat1 lon1 lat2 lon2 : ℚ) :
    0 ≤ haversine_distance lat1 lon1 lat2 lon2 := by
  unfold haversine_distance
  dsimp only
  refine mul_nonneg (by norm_num) (mul_nonneg (by norm_num) ?_)
  exact atan2_nonneg _ _ (Real.sqrt_nonneg _) (Real.sqrt_nonneg _)

/-- Each consecutive waypoint gap is nonnegative. -/
theorem gapOf_nonneg (ws : List Waypoint) (j : ℕ) : 0 ≤ WaypointSimplifier.gapOf ws j := by
  unfold WaypointSimplifier.gapOf
  exact haversine_nonneg _ _ _ _

namespace WaypointSimplifier

/-- Splitting a greedy walk at a list split point: the second part starts
from the leftover accumulator of the first. -/
theorem marks_append (B : ℝ) (l1 l2 : List ℝ) (a : ℝ) :
    marks B (l1 ++ l2) a = marks B l1 a + marks B l2 (leftover B l1 a) := by
  induction l1 generalizing a with
  | nil => simp [marks, leftover]
  | cons g l ih =>
    rw [List.cons_append]
    by_cases h : B ≤ a + g
    · simp only [marks, leftover, if_pos h, ih]
      omega
    · simp only [marks, leftover, if_neg h, ih]

/-- The leftover accumulator of a walk over nonnegative gaps is
nonnegative. -/
theorem leftover_nonneg (B : ℝ) (l : List ℝ) (a : ℝ) (ha : 0 ≤ a)
    (hl : ∀ g ∈ l, 0 ≤ g) : 0 ≤ leftover B l a := by
  induction l generalizing a with
  | nil => simpa [leftover] using ha
  | cons g l ih =>
    have hg : 0 ≤ g := hl g (List.mem_cons_self g l)
    have hl2 : ∀ g ∈ l, 0 ≤ g := fun g hg => hl g (List.mem_cons_of_mem _ hg)
    by_cases h : B ≤ a + g
    · simpa [leftover, if_pos h] using ih 0 le_rfl hl2
    · simpa [leftover, if_neg h] using ih (a + g) (by linarith) hl2

/-- Starting the walk with a larger accumulator yields at least as many
marks, but at most one more. -/
theorem marks_mono_pair (B : ℝ) (l : List ℝ) (hl : ∀ g ∈ l, 0 ≤ g) :
    ∀ a b : ℝ, 0 ≤ a → a ≤ b →
      marks B l a ≤ marks B l b ∧ marks B l b ≤ marks B l a + 1 := by
  induction l with
  | nil => intro a b _ _; simp [marks]
  | cons g l ih =>
    intro a b ha hab
    have hg : 0 ≤ g := hl g (List.mem_cons_self g l)
    have hl2 : ∀ g ∈ l, 0 ≤ g := fun g hg => hl g (List.mem_cons_of_mem _ hg)
    by_cases h1 : B ≤ a + g
    · have h2 : B ≤ b + g := by linarith
      simp only [marks, if_pos h1, if_pos h2]
      omega
    · by_cases h2 : B ≤ b + g
      · simp only [marks, if_pos h2, if_neg h1]
        have := ih hl2 0 (a + g) le_rfl (by linarith)
        omega
      · simp only [marks, if_neg h1, if_neg h2]
        exact ih hl2 (a + g) (b + g) (by linarith) (by linarith)

/-- Merging two gap segments (with the separating gap re-included)
produces at most one more mark than the two segments produce
separately. -/
theorem marks_merge_le (B : ℝ) (l1 l2 : List ℝ) (g : ℝ)
    (h1 : ∀ y ∈ l1, 0 ≤ y) (hg : 0 ≤ g) (h2 : ∀ y ∈ l2, 0 ≤ y) :
    marks B (l1 ++ g :: l2) 0 ≤ (marks B l1 0 + marks B l2 0) + 1 := by
  rw [marks_append]
  have hlo : 0 ≤ leftover B l1 0 := leftover_nonneg B l1 0 le_rfl h1
  have hstep : marks B (g :: l2) (leftover B l1 0) ≤ marks B l2 0 + 1 := by
    by_cases h : B ≤ leftover B l1 0 + g
    · simp [marks, if_pos h]
    · simp only [marks, if_neg h]
      exact (marks_mono_pair B l2 h2 0 (leftover B l1 0 + g) le_rfl (by linarith)).2
  omega

/-- chainPairs agrees with the zip of a list against its own tail. -/
theorem chainPairs_eq_zip (l : List ℕ) : chainPairs l = l.zip l.tail := by
  induction l with
  | nil => rfl
  | cons a l ih =>
    cases l with
    | nil => rfl
    | cons b t => simp [chainPairs, ih, List.zip_cons_cons]

/-- chainPairs of a cons against a nonempty tail. -/
theorem chainPairs_cons_of_ne_nil (x : ℕ) (v : List ℕ) (hv : v ≠ []) :
    chainPairs (x :: v) = (x, v.head hv) :: chainPairs v := by
  cases v with
  | nil => contradiction
  | cons c t => rfl

/-- chainPairs across an append adds the one bridging pair. -/
theorem chainPairs_append (u v : List ℕ) (hu : u ≠ []) (hv : v ≠ []) :
    chainPairs (u ++ v) = chainPairs u ++ (u.getLast hu, v.head hv) :: chainPairs v := by
  induction u with
  | nil => contradiction
  | cons a u ih =>
    cases u with
    | nil =>
      cases v with
      | nil => contradiction
      | cons c t => rfl
    | cons b u2 =>
      have hne : b :: u2 ≠ [] := by simp
      have step : chainPairs ((a :: b :: u2) ++ v) =
          (a, b) :: chainPairs ((b :: u2) ++ v) := rfl
      rw [step, ih hne]
      rw [List.getLast_cons hne]
      rfl

/-- The first component of a consecutive pair is an element of the
list. -/
theorem chainPairs_fst_mem (l : List ℕ) (p : ℕ × ℕ) (hp : p ∈ chainPairs l) :
    p.1 ∈ l := by
  obtain ⟨a, b⟩ := p
  rw [chainPairs_eq_zip] at hp
  exact (List.of_mem_zip hp).1

/-- Every consecutive pair arises from two adjacent positions of the
list. -/
theorem chainPairs_mem_get (l : List ℕ) (p : ℕ × ℕ) :
    p ∈ chainPairs l → ∃ i : ℕ, ∃ h : i + 1 < l.length,
      l.get ⟨i, by omega⟩ = p.1 ∧ l.get ⟨i + 1, h⟩ = p.2 := by
  induction l with
  | nil => intro hp; exact absurd hp (by simp [chainPairs])
  | cons a l ih =>
    cases l with
    | nil => intro hp; exact absurd hp (by simp [chainPairs])
    | cons b t =>
      intro hp
      have hstep : chainPairs (a :: b :: t) = (a, b) :: chainPairs (b :: t) := rfl
      rw [hstep] at hp
      rcases List.mem_cons.mp hp with hEq | hp2
      · subst hEq
        exact ⟨0, by simp only [List.length_cons]; omega, rfl, rfl⟩
      · obtain ⟨i, h, h1, h2⟩ := ih hp2
        refine ⟨i + 1, by simp only [List.length_cons] at h ⊢; omega, ?_, ?_⟩
        · simpa using h1
        · simpa using h2

/-- In a strictly sorted list, no element lies strictly between the two
components of a consecutive pair. -/
theorem sorted_chainPairs_not_between (l : List ℕ) (hs : l.Sorted (· < ·))
    (p : ℕ × ℕ) (hp : p ∈ chainPairs l) (b : ℕ) (hb : b ∈ l) :
    ¬ (p.1 < b ∧ b < p.2) := by
  obtain ⟨i, h, h1, h2⟩ := chainPairs_mem_get l p hp
  obtain ⟨jf, hj⟩ := List.mem_iff_get.mp hb
  rintro ⟨hb1, hb2⟩
  have hmono : StrictMono l.get := List.Sorted.get_strictMono hs
  have h3 : l.get ⟨i, by omega⟩ < l.get jf := by rw [h1, hj]; exact hb1
  have h4 : l.get jf < l.get ⟨i + 1, h⟩ := by rw [h2, hj]; exact hb2
  have h5 := hmono.lt_iff_lt.mp h3
  have h6 := hmono.lt_iff_lt.mp h4
  rw [Fin.lt_def] at h5 h6
  simp only at h5 h6
  omega

/-- Removing an interior element of a strictly sorted chain never raises
the weighted count, provided the weight satisfies the one-extra-mark merge
inequality. -/
theorem chainCount_erase_le (w : ℕ → ℕ → ℕ)
    (hw : ∀ a x c, a < x → x < c → w a c ≤ w a x + w x c + 1)
    (u v : List ℕ) (x : ℕ) (hu : u ≠ []) (hv : v ≠ [])
    (hs : (u ++ x :: v).Sorted (· < ·)) :
    chainCount w (u ++ v) ≤ chainCount w (u ++ x :: v) := by
  have hparts := List.pairwise_append.mp hs
  have hsxv := hparts.2.1
  have hcross := hparts.2.2
  have hlx : u.getLast hu < x := hcross _ (List.getLast_mem hu) x (List.mem_cons_self x v)
  have hxh : x < v.head hv := by
    have := List.rel_of_sorted_cons hsxv
    exact this _ (List.head_mem hv)
  unfold chainCount
  rw [chainPairs_append u v hu hv,
    chainPairs_append u (x :: v) hu (by simp),
    chainPairs_cons_of_ne_nil x v hv]
  simp only [List.map_append, List.sum_append, List.map_cons, List.sum_cons,
    List.length_append, List.length_cons]
  have hhead : (x :: v).head (by simp) = x := rfl
  rw [hhead]
  have := hw (u.getLast hu) x (v.head hv) hlx hxh
  omega

/-- Two strictly sorted lists over the same element set are equal. -/
theorem sorted_eq_of_subset_subset (l1 l2 : List ℕ) (h1 : l1.Sorted (· < ·))
    (h2 : l2.Sorted (· < ·)) (a : l1 ⊆ l2) (b : l2 ⊆ l1) : l1 = l2 := by
  haveI : IsAntisymm ℕ (· < ·) := ⟨fun a b hab hba => by omega⟩
  exact List.eq_of_perm_of_sorted
    ((List.subperm_of_subset h1.nodup a).antisymm (List.subperm_of_subset h2.nodup b)) h1 h2

/-- The weighted chain count is monotone under passing to a sorted
sub-chain with the same first and last elements, when the weight obeys the
merge inequality. -/
theorem chainCount_mono (w : ℕ → ℕ → ℕ)
    (hw : ∀ a x c, a < x → x < c → w a c ≤ w a x + w x c + 1) :
    ∀ (n : ℕ) (l1 l2 : List ℕ), l1.length ≤ n →
      l1.Sorted (· < ·) → l2.Sorted (· < ·) → (∀ y ∈ l2, y ∈ l1) →
      l1.head? = l2.head? → l1.getLast? = l2.getLast? →
      chainCount w l2 ≤ chainCount w l1 := by
  intro n
  induction n with
  | zero =>
    intro l1 l2 hlen hs1 hs2 hsub hhd hlast
    have h1 : l1 = [] := List.length_eq_zero.mp (by omega)
    subst h1
    have h2 : l2 = [] := by
      cases l2 with
      | nil => rfl
      | cons a t => exact absurd (hsub a (List.mem_cons_self a t)) (by simp)
    subst h2
    exact le_rfl
  | succ n ih =>
    intro l1 l2 hlen hs1 hs2 hsub hhd hlast
    by_cases heq : l1 = l2
    · rw [heq]
    · have hex : ∃ x ∈ l1, x ∉ l2 := by
        by_contra hc
        push_neg at hc
        exact heq (sorted_eq_of_subset_subset l1 l2 hs1 hs2 hc hsub)
      obtain ⟨x, hxl1, hxl2⟩ := hex
      obtain ⟨u, v, rfl⟩ := List.append_of_mem hxl1
      have hu : u ≠ [] := by
        rintro rfl
        simp only [List.nil_append] at hhd
        have : x ∈ l2 := by
          cases l2 with
          | nil => simp at hhd
          | cons a t =>
            simp only [List.head?_cons] at hhd
            have : x = a := by injection hhd
            subst this
            exact List.mem_cons_self _ _
        exact hxl2 this
      have hv : v ≠ [] := by
        rintro rfl
        rw [List.getLast?_concat] at hlast
        have : x ∈ l2 := List.mem_of_mem_getLast? hlast.symm
        exact hxl2 this
      have hparts := List.pairwise_append.mp hs1
      have hsuv : (u ++ v).Sorted (· < ·) := by
        apply List.pairwise_append.mpr
        refine ⟨hparts.1, (List.pairwise_cons.mp hparts.2.1).2, ?_⟩
        intro a ha b hb
        exact hparts.2.2 a ha b (List.mem_cons_of_mem x hb)
      refine le_trans (ih (u ++ v) l2 ?_ hsuv hs2 ?_ ?_ ?_)
        (chainCount_erase_le w hw u v x hu hv hs1)
      · have := List.length_append u (x :: v)
        simp only [List.length_cons] at this
        rw [List.length_append]
        omega
      · intro y hy
        have hy1 := hsub y hy
        rw [List.mem_append] at hy1 ⊢
        rcases hy1 with hy1 | hy1
        · exact Or.inl hy1
        · rcases List.mem_cons.mp hy1 with rfl | hy1
          · exact absurd hy hxl2
          · exact Or.inr hy1
      · cases u with
        | nil => contradiction
        | cons a t => simpa using hhd
      · rw [List.getLast?_append_of_ne_nil _ hv]
        rw [List.getLast?_append_of_ne_nil _ (by simp : x :: v ≠ [])] at hlast
        rw [← hlast]
        cases v with
        | nil => contradiction
        | cons c t => simp [List.getLast?_cons_cons]

/-- The inner accumulation loop inserts exactly the greedily marked
indices: its added-set cardinality is the mark count of the traversed gap
list. -/
theorem innerfold_added_card (ws : List Waypoint) (m : ℚ) :
    ∀ (L : List ℕ) (s : AccState), L.Nodup → (∀ j ∈ L, j ∉ s.added) →
      ((L.foldl (innerStep ws m) s).added).card
        = s.added.card + marks (m : ℝ) (L.map (gapOf ws)) s.accumulated_distance := by
  intro L
  induction L with
  | nil => intro s _ _; simp [marks]
  | cons j L ih =>
    intro s hnd hnotin
    have hndt : L.Nodup := (List.nodup_cons.mp hnd).2
    have hjL : j ∉ L := (List.nodup_cons.mp hnd).1
    have hjs : j ∉ s.added := hnotin j (List.mem_cons_self j L)
    rw [List.foldl_cons, List.map_cons]
    by_cases h : (m : ℝ) ≤ s.accumulated_distance + gapOf ws j
    · have hnotin2 : ∀ j2 ∈ L, j2 ∉ (insert j s.added : Finset ℕ) := by
        intro j2 hj2
        rw [Finset.mem_insert]
        push_neg
        exact ⟨fun hEq => absurd (hEq ▸ hj2) hjL,
          hnotin j2 (List.mem_cons_of_mem j hj2)⟩
      rw [innerStep_trigger ws m s j h]
      rw [ih { accumulated_distance := 0, last_added_idx := j, added := insert j s.added }
        hndt hnotin2]
      dsimp only
      rw [Finset.card_insert_of_not_mem hjs]
      simp only [marks]
      rw [if_pos h]
      omega
    · rw [innerStep_no_trigger ws m s j h]
      rw [ih { accumulated_distance := s.accumulated_distance + haversine_distance (ws.getD (j - 1) default).latitude (ws.getD (j - 1) default).longitude (ws.getD j default).latitude (ws.getD j default).longitude, last_added_idx := s.last_added_idx, added := s.added } hndt (fun j2 hj2 => hnotin j2 (List.mem_cons_of_mem j hj2))]
      dsimp only
      simp only [marks]
      rw [if_neg h]
      rfl

/-- The per-pair inserted set has exactly the abstract gap weight as its
cardinality. -/
theorem pairAdded_card (ws : List Waypoint) (m : ℚ) (a c : ℕ) :
    (pairAdded ws m a c).card = gapWeight ws (m : ℝ) a c := by
  unfold pairAdded gapWeight
  rw [innerfold_added_card ws m (List.range' (a + 1) (c - (a + 1)))
    { accumulated_distance := 0, last_added_idx := a, added := ∅ }
    (List.nodup_range' _ _) (by intro j hj; simp)]
  simp

/-- The per-pair inserted set lies strictly between its endpoints. -/
theorem pairAdded_subset_Ioo (ws : List Waypoint) (m : ℚ) (a c : ℕ) :
    pairAdded ws m a c ⊆ Finset.Ioo a c := by
  unfold pairAdded
  refine (innerfold_added_subset ws m _ _).trans ?_
  intro y hy
  rw [Finset.mem_union] at hy
  rcases hy with hy | hy
  · simp at hy
  · rw [List.mem_toFinset, List.mem_range'_1] at hy
    exact Finset.mem_Ioo.mpr (by omega)

/-- Folding pairwise unions of interval-confined sets over the consecutive
pairs of a strictly sorted list counts each set once. -/
theorem chain_fold_card (S : ℕ → ℕ → Finset ℕ) (w : ℕ → ℕ → ℕ)
    (hS : ∀ a c, S a c ⊆ Finset.Ioo a c) (hcard : ∀ a c, (S a c).card = w a c) :
    ∀ (l : List ℕ) (A : Finset ℕ), l.Sorted (· < ·) →
      (∀ b ∈ A, ∀ p ∈ chainPairs l, ¬ (p.1 < b ∧ b < p.2)) →
      ((chainPairs l).foldl (fun r p => r ∪ S p.1 p.2) A).card
        = A.card + ((chainPairs l).map (fun p => w p.1 p.2)).sum := by
  intro l
  induction l with
  | nil => intro A _ _; simp [chainPairs]
  | cons x l ih =>
    intro A hs hA
    cases l with
    | nil => simp [chainPairs]
    | cons y t =>
      have hstep : chainPairs (x :: y :: t) = (x, y) :: chainPairs (y :: t) := rfl
      rw [hstep] at hA ⊢
      rw [List.foldl_cons, List.map_cons, List.sum_cons]
      have hdisj : Disjoint A (S x y) := by
        rw [Finset.disjoint_left]
        intro b hbA hbS
        have hIoo := Finset.mem_Ioo.mp (hS x y hbS)
        exact hA b hbA (x, y) (List.mem_cons_self _ _) hIoo
      have hfst : ∀ p ∈ chainPairs (y :: t), y ≤ p.1 := by
        intro p hp
        have hmem : p.1 ∈ y :: t := chainPairs_fst_mem _ _ hp
        rcases List.mem_cons.mp hmem with hEq | hmem2
        · exact le_of_eq hEq.symm
        · exact le_of_lt (List.rel_of_sorted_cons (List.Sorted.of_cons hs) _ hmem2)
      have hA2 : ∀ b ∈ A ∪ S x y, ∀ p ∈ chainPairs (y :: t), ¬ (p.1 < b ∧ b < p.2) := by
        intro b hb p hp
        rcases Finset.mem_union.mp hb with hbA | hbS
        · exact hA b hbA p (List.mem_cons_of_mem _ hp)
        · have hby : b < y := (Finset.mem_Ioo.mp (hS x y hbS)).2
          have := hfst p hp
          rintro ⟨hc1, _⟩
          omega
      rw [ih (A ∪ S x y) (List.Sorted.of_cons hs) hA2]
      rw [Finset.card_union_of_disjoint hdisj, hcard]
      dsimp only
      omega

/-- The merge inequality for the concrete gap weight: merging the two
segments around a removed critical index places at most one extra
intermediate index. -/
theorem gapWeight_merge (ws : List Waypoint) (B : ℝ) (a x c : ℕ)
    (hax : a < x) (hxc : x < c) :
    gapWeight ws B a c ≤ gapWeight ws B a x + gapWeight ws B x c + 1 := by
  unfold gapWeight
  have h1 : x :: List.range' (x + 1) (c - (x + 1)) = List.range' x (c - x) := by
    rw [show c - x = (c - (x + 1)) + 1 by omega]
    rfl
  have hsplit : List.range' (a + 1) (c - (a + 1))
      = List.range' (a + 1) (x - (a + 1)) ++ x :: List.range' (x + 1) (c - (x + 1)) := by
    rw [h1]
    rw [show List.range' x (c - x)
        = List.range' ((a + 1) + (x - (a + 1))) (c - x) by congr 1; omega]
    rw [List.range'_append_1]
    congr 1
    omega
  rw [hsplit, List.map_append, List.map_cons]
  exact marks_merge_le B _ _ _
    (by intro y hy; obtain ⟨j, _, rfl⟩ := List.mem_map.mp hy; exact gapOf_nonneg ws j)
    (gapOf_nonneg ws x)
    (by intro y hy; obtain ⟨j, _, rfl⟩ := List.mem_map.mp hy; exact gapOf_nonneg ws j)

/-- The sorted emission of a critical set containing 0 and its upper bound
n starts at 0 and ends at n. -/
theorem sort_head_getLast (C : Finset ℕ) (n : ℕ) (h0 : 0 ∈ C) (hn : n ∈ C)
    (hub : ∀ b ∈ C, b ≤ n) :
    (C.sort (· ≤ ·)).head? = some 0 ∧ (C.sort (· ≤ ·)).getLast? = some n := by
  have hCne : C.Nonempty := ⟨0, h0⟩
  have hlen : 0 < (C.sort (· ≤ ·)).length := by
    rw [Finset.length_sort]
    exact Finset.card_pos.mpr hCne
  have hmin : C.min' hCne = 0 := le_antisymm (Finset.min'_le _ _ h0) (Nat.zero_le _)
  have hmax : C.max' hCne = n :=
    le_antisymm (Finset.max'_le _ _ _ hub) (Finset.le_max' _ _ hn)
  constructor
  · have hms := Finset.min'_eq_sorted_zero (s := C) (h := hCne)
    rw [hmin] at hms
    rw [List.head?_eq_getElem?, List.getElem?_eq_getElem hlen]
    exact congrArg some hms.symm
  · have hms := Finset.max'_eq_sorted_last (s := C) (h := hCne)
    rw [hmax] at hms
    rw [List.getLast?_eq_getElem?, List.getElem?_eq_getElem (by omega)]
    exact congrArg some hms.symm

/-- With no time budget and a truthy distance budget, the augmented
critical set has exactly the weighted chain count of the sorted critical
chain: the constant budget makes every per-segment walk use the same
distance bound. -/
theorem add_intermediate_card_of_time_none (cfg : WaypointSimplifier)
    (ws : List Waypoint) (C : Finset ℕ) (ht : cfg.max_time_between_s = none)
    (hd : qTruthy cfg.max_distance_between_m = true) :
    (cfg.add_intermediate_waypoints ws C).card
      = chainCount (gapWeight ws ((cfg.max_distance_between_m.getD 0 : ℚ) : ℝ))
          (C.sort (· ≤ ·)) := by
  have hmd : ∀ i : ℕ, maxDistFor cfg ws i = cfg.max_distance_between_m := by
    intro i
    unfold maxDistFor
    rw [ht]
    rfl
  have hbody : ∀ (r : Finset ℕ) (p : ℕ × ℕ),
      (if p.2 - p.1 ≤ 1 then r
        else if qTruthy (maxDistFor cfg ws p.1) then
          r ∪ ((List.range' (p.1 + 1) (p.2 - (p.1 + 1))).foldl
            (innerStep ws ((maxDistFor cfg ws p.1).getD 0))
            { accumulated_distance := 0, last_added_idx := p.1, added := ∅ }).added
        else r)
      = r ∪ pairAdded ws (cfg.max_distance_between_m.getD 0) p.1 p.2 := by
    intro r p
    by_cases hskip : p.2 - p.1 ≤ 1
    · rw [if_pos hskip]
      unfold pairAdded
      rw [show p.2 - (p.1 + 1) = 0 by omega]
      simp
    · rw [if_neg hskip, hmd p.1, hd, if_pos rfl]
      unfold pairAdded
      rfl
  unfold add_intermediate_waypoints
  dsimp only
  simp only [hbody]
  rw [← chainPairs_eq_zip]
  rw [chain_fold_card (pairAdded ws (cfg.max_distance_between_m.getD 0))
    (gapWeight ws ((cfg.max_distance_between_m.getD 0 : ℚ) : ℝ))
    (pairAdded_subset_Ioo ws _) (pairAdded_card ws _)
    (C.sort (· ≤ ·)) C (Finset.sort_sorted_lt C) ?_]
  · unfold chainCount
    rw [Finset.length_sort]
  · intro b hb p hp
    exact sorted_chainPairs_not_between _ (Finset.sort_sorted_lt C) p hp b
      ((Finset.mem_sort _).mpr hb)

end WaypointSimplifier

/-- C8 amended: for every fixed waypoint sequence, any two angle
thresholds t1 ≤ t2, any distance budget and any speeds, as long as no time
budget is configured, the number of waypoints returned by simplify with
threshold t2 is at most the number returned with threshold t1. (With a
time budget the count can increase: see the counterexample, which exploits
the per-segment budget being scaled by the segment-start waypoint
speed.) -/
theorem C8_threshold_monotone_no_time_budget (ws : List Waypoint) (t1 t2 : ℚ)
    (d : Option ℚ) (s1 s2 : ℚ) (h12 : t1 ≤ t2) :
    ((⟨t2, d, none, s2⟩ : WaypointSimplifier).simplify ws).length ≤
      ((⟨t1, d, none, s1⟩ : WaypointSimplifier).simplify ws).length := by
  by_cases hlen : ws.length ≤ 2
  · unfold WaypointSimplifier.simplify
    rw [if_pos hlen, if_pos hlen]
  by_cases hd : qTruthy d = true
  · have hne : ws ≠ [] := by
      intro h
      rw [h] at hlen
      simp at hlen
    have hub1 : ∀ b ∈ (⟨t1, d, none, s1⟩ : WaypointSimplifier).find_critical_waypoints ws,
        b ≤ ws.length - 1 := by
      intro b hb
      have := Finset.mem_range.mp (find_critical_subset_range _ ws hne hb)
      omega
    have hub2 : ∀ b ∈ (⟨t2, d, none, s2⟩ : WaypointSimplifier).find_critical_waypoints ws,
        b ≤ ws.length - 1 := by
      intro b hb
      have := Finset.mem_range.mp (find_critical_subset_range _ ws hne hb)
      omega
    have hh1 := WaypointSimplifier.sort_head_getLast _ (ws.length - 1)
      (zero_mem_find_critical (⟨t1, d, none, s1⟩ : WaypointSimplifier) ws)
      (last_mem_find_critical _ ws) hub1
    have hh2 := WaypointSimplifier.sort_head_getLast _ (ws.length - 1)
      (zero_mem_find_critical (⟨t2, d, none, s2⟩ : WaypointSimplifier) ws)
      (last_mem_find_critical _ ws) hub2
    rw [simplify_length_with_spacing _ _ (by rw [hd]; rfl) hlen,
      simplify_length_with_spacing _ _ (by rw [hd]; rfl) hlen,
      WaypointSimplifier.add_intermediate_card_of_time_none _ _ _ rfl hd,
      WaypointSimplifier.add_intermediate_card_of_time_none _ _ _ rfl hd]
    apply WaypointSimplifier.chainCount_mono
      (WaypointSimplifier.gapWeight ws ((d.getD 0 : ℚ) : ℝ))
      (fun a x c hax hxc => WaypointSimplifier.gapWeight_merge ws _ a x c hax hxc)
      (((⟨t1, d, none, s1⟩ : WaypointSimplifier).find_critical_waypoints ws).sort
        (· ≤ ·)).length _ _ le_rfl
      (Finset.sort_sorted_lt _) (Finset.sort_sorted_lt _)
    · intro y hy
      rw [Finset.mem_sort] at hy ⊢
      exact find_critical_antitone _ _ ws h12 hy
    · rw [hh1.1, hh2.1]
    · rw [hh1.2, hh2.2]
  · have hdf : qTruthy d = false := by
      simp only [Bool.not_eq_true] at hd
      exact hd
    rw [simplify_length_no_spacing _ _ hdf rfl hlen,
      simplify_length_no_spacing _ _ hdf rfl hlen]
    exact Finset.card_le_card (find_critical_antitone _ _ ws h12)

/-- Witness for the amended C8 at thresholds 1 ≤ 2 with a 1000 m distance
budget over the collinear fixture. -/
theorem C8_threshold_monotone_no_time_budget_witness :
    ((⟨2, some 1000, none, 5⟩ : WaypointSimplifier).simplify c3Collinear).length ≤
      ((⟨1, some 1000, none, 5⟩ : WaypointSimplifier).simplify c3Collinear).length :=
  C8_threshold_monotone_no_time_budget c3Collinear 1 2 (some 1000) 5 5 (by norm_num)

end GeoFlight
